import Mathlib

/-!
A shallow embedding of the Lightning routing subsystem in `ln/router.rs`
(network-map gossip handlers and the destination-to-source Dijkstra route
finder), together with theorems settling the specification claims.

Modelling conventions:
* Public keys and short channel ids are modelled as `Nat`.  The heap tiebreak
  on serialized public keys becomes numeric comparison.
* The build is the default (no `non_bitcoin_chain_hash_routing` feature), so
  the channel-map key is the bare `short_channel_id` and `chain_hash` is
  ignored by `NetworkMap.get_key`.
* `u64` arithmetic is carried out on `Nat` modulo `2 ^ 64` (`uadd`, `usub`,
  `umul`), matching Rust release-mode wrapping semantics; `u32`/`u16` fields
  are only ever copied or `min`-combined by the code, never arithmetically
  combined, so they stay plain `Nat`s with the `u32::max_value()` sentinel
  written out explicitly.
* The secp256k1 signature oracle is external to the core (it is an opaque
  collaborator in the spec); each message carries a `signature_valid` flag
  standing for the outcome of the corresponding `secp_ctx.verify` calls, and
  handlers fail with the `InvalidSignature` error exactly where the source
  invokes `secp_verify_sig!`.
* Rust `HashMap`s are modelled as a function map for `channels` (never
  iterated by the code) and an association list for `nodes` (iterated when
  `get_route` initialises its `dist` table).
* `.unwrap()` on a missing entry is a Rust panic; it is modelled by the
  distinguished result `RouterErr.panicked`.  The unbounded `while let` loop
  of `get_route` takes an explicit fuel argument; exhausting it yields the
  distinguished result `RouterErr.outOfFuel` (for every theorem below the
  fuel is either universally quantified or large enough to be irrelevant).
-/

set_option maxRecDepth 4000

/-! ## Machine-integer helpers -/

/-- Modulus of `u64` arithmetic. -/
def U64LIM : Nat := 18446744073709551616

/-- `u64::max_value()`. -/
def U64MAX : Nat := U64LIM - 1

/-- `u32::max_value()`. -/
def U32MAX : Nat := 4294967295

/-- `u16::max_value()`. -/
def U16MAX : Nat := 65535

/-- Wrapping `u64` addition. -/
def uadd (a b : Nat) : Nat := (a + b) % U64LIM

/-- Wrapping `u64` subtraction (operands are `u64` values, i.e. `< U64LIM`). -/
def usub (a b : Nat) : Nat := (a + U64LIM - b % U64LIM) % U64LIM

/-- Wrapping `u64` multiplication. -/
def umul (a b : Nat) : Nat := (a * b) % U64LIM

/-- `u64` division (never overflows). -/
def udiv (a b : Nat) : Nat := a / b

/-! ## Association-list maps

The `nodes : HashMap<PublicKey, NodeInfo>` dictionary (and the pathfinder's
`dist` table) are modelled as association lists with the usual
lookup/insert/remove operations; `insert` overwrites the first binding of an
existing key in place and appends fresh keys. -/

def alistLookup {α : Type} : List (Nat × α) → Nat → Option α
  | [], _ => none
  | (k, v) :: rest, key => if k = key then some v else alistLookup rest key

def alistInsert {α : Type} : List (Nat × α) → Nat → α → List (Nat × α)
  | [], key, v => [(key, v)]
  | (k, w) :: rest, key, v =>
    if k = key then (k, v) :: rest else (k, w) :: alistInsert rest key v

def alistRemove {α : Type} : List (Nat × α) → Nat → Option (α × List (Nat × α))
  | [], _ => none
  | (k, v) :: rest, key =>
    if k = key then some (v, rest)
    else
      match alistRemove rest key with
      | none => none
      | some (w, rest') => some (w, (k, v) :: rest')

/-! ## Data model (`ln/router.rs` structs) -/

/-- Feature bitmaps are consumed only through `requires_unknown_bits()` and
`supports_unknown_bits()`; the bitmap itself is abstracted to those two
observations. -/
structure GlobalFeatures where
  requiresUnknownBits : Bool
  supportsUnknownBits : Bool
deriving DecidableEq, Repr

/-- `GlobalFeatures::new()`: no unknown bits set. -/
def GlobalFeatures.new : GlobalFeatures := ⟨false, false⟩

structure DirectionalChannelInfo where
  src_node_id : Nat
  last_update : Nat
  enabled : Bool
  cltv_expiry_delta : Nat
  htlc_minimum_msat : Nat
  fee_base_msat : Nat
  fee_proportional_millionths : Nat
deriving DecidableEq, Repr

structure ChannelInfo where
  features : GlobalFeatures
  one_to_two : DirectionalChannelInfo
  two_to_one : DirectionalChannelInfo
deriving DecidableEq, Repr

structure NodeInfo where
  channels : List Nat
  lowest_inbound_channel_fee_base_msat : Nat
  lowest_inbound_channel_fee_proportional_millionths : Nat
  features : GlobalFeatures
  last_update : Nat
  rgb : List Nat
  alias_bytes : List Nat
  addresses : List Nat
deriving DecidableEq, Repr

/-- Channel dictionary, keyed by `short_channel_id` (bitcoin-only build). -/
def ChanMap : Type := Nat → Option ChannelInfo

structure NetworkMap where
  channels : ChanMap
  our_node_id : Nat
  nodes : List (Nat × NodeInfo)

/-- A hop in a route (`RouteHop`). -/
structure RouteHop where
  pubkey : Nat
  short_channel_id : Nat
  fee_msat : Nat
  cltv_expiry_delta : Nat
deriving DecidableEq, Repr

/-- A route from us through the network to a destination (`Route`). -/
structure Route where
  hops : List RouteHop
deriving DecidableEq, Repr

/-- A channel descriptor which provides a last-hop route to `get_route`
(`RouteHint`; note `fee_base_msat` is a `u64` here in the source). -/
structure RouteHint where
  src_node_id : Nat
  short_channel_id : Nat
  fee_base_msat : Nat
  fee_proportional_millionths : Nat
  cltv_expiry_delta : Nat
  htlc_minimum_msat : Nat
deriving DecidableEq, Repr

/-! ## Messages and errors -/

inductive ErrorAction
  | IgnoreError
deriving DecidableEq, Repr

/-- The error taxonomy.  Each constructor stands for the distinct `err` string
the source builds its `HandleError` with:
`InvalidSignature` = "Invalid signature from remote node",
`NoKnownChannels` = "No existing channels for node_announcement",
`Stale` = "Update older than last processed update",
`UnknownRequiredFeature` = "Channel announcement required unknown feature flags",
`Duplicate` = "Already have knowledge of channel",
`UnknownChannel` = "Couldnt find channel for update",
`RouteToSelf` = "Cannot generate a route to ourselves",
`NoPath` = "Failed to find a path to the given destination". -/
inductive HandleErrKind
  | InvalidSignature
  | NoKnownChannels
  | Stale
  | UnknownRequiredFeature
  | Duplicate
  | UnknownChannel
  | RouteToSelf
  | NoPath
deriving DecidableEq, Repr

structure HandleError where
  err : HandleErrKind
  msg : Option ErrorAction
deriving DecidableEq, Repr

/-- Results of a handler call: a clean `HandleError`, a Rust panic (a failed
`.unwrap()`), or fuel exhaustion of the modelled unbounded loop. -/
inductive RouterErr
  | handle (e : HandleError)
  | panicked
  | outOfFuel
deriving DecidableEq, Repr

structure UnsignedNodeAnnouncement where
  features : GlobalFeatures
  timestamp : Nat
  node_id : Nat
  rgb : List Nat
  alias_bytes : List Nat
  addresses : List Nat
deriving DecidableEq, Repr

structure NodeAnnouncement where
  signature_valid : Bool
  contents : UnsignedNodeAnnouncement
deriving DecidableEq, Repr

structure UnsignedChannelAnnouncement where
  features : GlobalFeatures
  chain_hash : Nat
  short_channel_id : Nat
  node_id_1 : Nat
  node_id_2 : Nat
  bitcoin_key_1 : Nat
  bitcoin_key_2 : Nat
deriving DecidableEq, Repr

/-- `signatures_valid` abstracts the conjunction of the four
`secp_verify_sig!` outcomes (two node signatures, two bitcoin-key
signatures over the same digest). -/
structure ChannelAnnouncement where
  signatures_valid : Bool
  contents : UnsignedChannelAnnouncement
deriving DecidableEq, Repr

structure UnsignedChannelUpdate where
  chain_hash : Nat
  short_channel_id : Nat
  timestamp : Nat
  flags : Nat
  cltv_expiry_delta : Nat
  htlc_minimum_msat : Nat
  fee_base_msat : Nat
  fee_proportional_millionths : Nat
deriving DecidableEq, Repr

/-- `signature_valid` abstracts the `secp_verify_sig!` outcome against the
source key of the direction selected by bit 0 of `flags`. -/
structure ChannelUpdate where
  signature_valid : Bool
  contents : UnsignedChannelUpdate
deriving DecidableEq, Repr

inductive HTLCFailChannelUpdate
  | ChannelUpdateMessage (msg : ChannelUpdate)
  | ChannelClosed (short_channel_id : Nat)
deriving DecidableEq, Repr

/-! ## Gossip handlers -/

/-- `Router::new`: the node map starts with our own node, empty channel list
and sentinel caches. -/
def routerNew (our_pubkey : Nat) : NetworkMap :=
  { channels := fun _ => none
    our_node_id := our_pubkey
    nodes := [(our_pubkey,
      { channels := []
        lowest_inbound_channel_fee_base_msat := U32MAX
        lowest_inbound_channel_fee_proportional_millionths := U32MAX
        features := GlobalFeatures.new
        last_update := 0
        rgb := [0, 0, 0]
        alias_bytes := List.replicate 32 0
        addresses := [] })] }

/-- `handle_node_announcement`. -/
def handleNodeAnnouncement (net : NetworkMap) (msg : NodeAnnouncement) :
    Except RouterErr NetworkMap :=
  if msg.signature_valid = false then
    .error (.handle ⟨.InvalidSignature, none⟩)
  else
    match alistLookup net.nodes msg.contents.node_id with
    | none => .error (.handle ⟨.NoKnownChannels, some .IgnoreError⟩)
    | some node =>
      if node.last_update ≥ msg.contents.timestamp then
        .error (.handle ⟨.Stale, some .IgnoreError⟩)
      else
        let node' : NodeInfo :=
          { node with
            features := msg.contents.features
            last_update := msg.contents.timestamp
            rgb := msg.contents.rgb
            alias_bytes := msg.contents.alias_bytes
            addresses := msg.contents.addresses }
        .ok { net with nodes := alistInsert net.nodes msg.contents.node_id node' }

/-- Sentinel initial state of a directional record created by a channel
announcement: disabled, maximum value in every numeric field, `last_update`
zero. -/
def initialDirectionalInfo (src : Nat) : DirectionalChannelInfo :=
  { src_node_id := src
    last_update := 0
    enabled := false
    cltv_expiry_delta := U16MAX
    htlc_minimum_msat := U64MAX
    fee_base_msat := U32MAX
    fee_proportional_millionths := U32MAX }

/-- The `add_channel_to_node!` macro: append the channel id to an existing
node's list, or create a placeholder node holding just this channel. -/
def addChannelToNode (nodes : List (Nat × NodeInfo)) (node_id chan_key : Nat) :
    List (Nat × NodeInfo) :=
  match alistLookup nodes node_id with
  | some node =>
    alistInsert nodes node_id { node with channels := node.channels ++ [chan_key] }
  | none =>
    alistInsert nodes node_id
      { channels := [chan_key]
        lowest_inbound_channel_fee_base_msat := U32MAX
        lowest_inbound_channel_fee_proportional_millionths := U32MAX
        features := GlobalFeatures.new
        last_update := 0
        rgb := [0, 0, 0]
        alias_bytes := List.replicate 32 0
        addresses := [] }

/-- `handle_channel_announcement`.  Returns the updated map and the boolean
`!msg.contents.features.supports_unknown_bits()`. -/
def handleChannelAnnouncement (net : NetworkMap) (msg : ChannelAnnouncement) :
    Except RouterErr (NetworkMap × Bool) :=
  if msg.signatures_valid = false then
    .error (.handle ⟨.InvalidSignature, none⟩)
  else if msg.contents.features.requiresUnknownBits then
    .error (.handle ⟨.UnknownRequiredFeature, none⟩)
  else
    match net.channels msg.contents.short_channel_id with
    | some _ => .error (.handle ⟨.Duplicate, some .IgnoreError⟩)
    | none =>
      let newChan : ChannelInfo :=
        { features := msg.contents.features
          one_to_two := initialDirectionalInfo msg.contents.node_id_1
          two_to_one := initialDirectionalInfo msg.contents.node_id_2 }
      let channels' : ChanMap := fun k =>
        if k = msg.contents.short_channel_id then some newChan else net.channels k
      let nodes1 := addChannelToNode net.nodes msg.contents.node_id_1
        msg.contents.short_channel_id
      let nodes2 := addChannelToNode nodes1 msg.contents.node_id_2
        msg.contents.short_channel_id
      .ok ({ channels := channels', our_node_id := net.our_node_id, nodes := nodes2 },
        !msg.contents.features.supportsUnknownBits)

/-- Bit 1 of `flags` clear means the update enables the directional record:
`msg.contents.flags & (1 << 1) != (1 << 1)`. -/
def chanEnabledOf (flags : Nat) : Bool :=
  if flags &&& 2 = 2 then false else true

/-- The directional record as overwritten by `maybe_update_channel_info!`
(every field except `src_node_id` comes from the message). -/
def updatedDirectionalInfo (target : DirectionalChannelInfo)
    (msg : UnsignedChannelUpdate) : DirectionalChannelInfo :=
  { src_node_id := target.src_node_id
    last_update := msg.timestamp
    enabled := chanEnabledOf msg.flags
    cltv_expiry_delta := msg.cltv_expiry_delta
    htlc_minimum_msat := msg.htlc_minimum_msat
    fee_base_msat := msg.fee_base_msat
    fee_proportional_millionths := msg.fee_proportional_millionths }

/-- The full-rescan fold of `handle_channel_update`'s disable path: fold the
destination node's channel list, taking the minimum `fee_base_msat` and
`fee_proportional_millionths` of the directional record selected by the
`one_to_two.src_node_id == dest` test (note: the source does not test
`enabled` here).  `none` models the panic of `.get(chan_id).unwrap()` on a
dangling channel id. -/
def rescanFees (channels : ChanMap) (dest : Nat) :
    List Nat → Nat → Nat → Option (Nat × Nat)
  | [], b, p => some (b, p)
  | chan_id :: rest, b, p =>
    match channels chan_id with
    | none => none
    | some chan =>
      if chan.one_to_two.src_node_id = dest then
        rescanFees channels dest rest (min b chan.two_to_one.fee_base_msat)
          (min p chan.two_to_one.fee_proportional_millionths)
      else
        rescanFees channels dest rest (min b chan.one_to_two.fee_base_msat)
          (min p chan.one_to_two.fee_proportional_millionths)

/-- The cache-maintenance tail of `handle_channel_update` (everything after
`maybe_update_channel_info!` committed the new directional record into
`channels'`): `min` update on enable, full rescan on disable of a previously
enabled record, no cache change otherwise. -/
def cacheSection (net : NetworkMap) (channels' : ChanMap) (dest_node_id : Nat)
    (chan_enabled chan_was_enabled : Bool) (fee_base fee_prop : Nat) :
    Except RouterErr NetworkMap :=
  if chan_enabled then
    match alistLookup net.nodes dest_node_id with
    | none => .error .panicked
    | some node =>
      .ok { channels := channels', our_node_id := net.our_node_id,
            nodes := alistInsert net.nodes dest_node_id
              { node with
                lowest_inbound_channel_fee_base_msat :=
                  min node.lowest_inbound_channel_fee_base_msat fee_base
                lowest_inbound_channel_fee_proportional_millionths :=
                  min node.lowest_inbound_channel_fee_proportional_millionths fee_prop } }
  else if chan_was_enabled then
    match alistLookup net.nodes dest_node_id with
    | none => .error .panicked
    | some node =>
      match rescanFees channels' dest_node_id node.channels U32MAX U32MAX with
      | none => .error .panicked
      | some (b, p) =>
        .ok { channels := channels', our_node_id := net.our_node_id,
              nodes := alistInsert net.nodes dest_node_id
                { node with
                  lowest_inbound_channel_fee_base_msat := b
                  lowest_inbound_channel_fee_proportional_millionths := p } }
  else
    .ok { channels := channels', our_node_id := net.our_node_id, nodes := net.nodes }

/-- `handle_channel_update`.  Bit 0 of `flags` selects the directional record
(`1` is `two_to_one`); the expected signer is the source of the selected
direction and the destination is the source of the opposite one. -/
def handleChannelUpdate (net : NetworkMap) (msg : ChannelUpdate) :
    Except RouterErr NetworkMap :=
  match net.channels msg.contents.short_channel_id with
  | none => .error (.handle ⟨.UnknownChannel, some .IgnoreError⟩)
  | some channel =>
    if msg.signature_valid = false then
      .error (.handle ⟨.InvalidSignature, none⟩)
    else if msg.contents.flags &&& 1 = 1 then
      if channel.two_to_one.last_update ≥ msg.contents.timestamp then
        .error (.handle ⟨.Stale, some .IgnoreError⟩)
      else
        cacheSection net
          (fun k => if k = msg.contents.short_channel_id then
            some { channel with
              two_to_one := updatedDirectionalInfo channel.two_to_one msg.contents }
            else net.channels k)
          channel.one_to_two.src_node_id
          (chanEnabledOf msg.contents.flags) channel.two_to_one.enabled
          msg.contents.fee_base_msat msg.contents.fee_proportional_millionths
    else
      if channel.one_to_two.last_update ≥ msg.contents.timestamp then
        .error (.handle ⟨.Stale, some .IgnoreError⟩)
      else
        cacheSection net
          (fun k => if k = msg.contents.short_channel_id then
            some { channel with
              one_to_two := updatedDirectionalInfo channel.one_to_two msg.contents }
            else net.channels k)
          channel.two_to_one.src_node_id
          (chanEnabledOf msg.contents.flags) channel.one_to_two.enabled
          msg.contents.fee_base_msat msg.contents.fee_proportional_millionths

/-- `handle_htlc_fail_channel_update`: dispatch a wrapped channel update and
swallow its `HandleError` (a Rust panic would still propagate), or
unconditionally remove a closed channel from the channel map. -/
def handleHtlcFailChannelUpdate (net : NetworkMap) (update : HTLCFailChannelUpdate) :
    Except RouterErr NetworkMap :=
  match update with
  | .ChannelUpdateMessage msg =>
    match handleChannelUpdate net msg with
    | .ok n' => .ok n'
    | .error (.handle _) => .ok net
    | .error e => .error e
  | .ChannelClosed short_channel_id =>
    .ok { net with channels := fun k =>
      if k = short_channel_id then none else net.channels k }

/-! ## Handler sequences -/

/-- One inbound gossip message. -/
inductive Op
  | nodeAnn (m : NodeAnnouncement)
  | chanAnn (m : ChannelAnnouncement)
  | chanUpd (m : ChannelUpdate)
  | htlcFail (m : HTLCFailChannelUpdate)

/-- Dispatch one message to its handler (dropping the rebroadcast boolean of
a channel announcement). -/
def applyOp (net : NetworkMap) : Op → Except RouterErr NetworkMap
  | .nodeAnn m => handleNodeAnnouncement net m
  | .chanAnn m => (handleChannelAnnouncement net m).map Prod.fst
  | .chanUpd m => handleChannelUpdate net m
  | .htlcFail m => handleHtlcFailChannelUpdate net m

/-- The router's state after a handler call: handlers mutate under the writer
lock and every error is returned before any mutation, so a failed call leaves
the previous state. -/
def stepOk (net : NetworkMap) (op : Op) : NetworkMap :=
  match applyOp net op with
  | .ok n' => n'
  | .error _ => net

/-- A channel announcement for two distinct endpoints (the spec's data-model
invariant that `one_to_two.src_node_id` and `two_to_one.src_node_id` are
distinct); other messages are unconstrained. -/
def opWellFormed : Op → Prop
  | .chanAnn m => m.contents.node_id_1 ≠ m.contents.node_id_2
  | _ => True

/-- Network maps reachable from `Router::new` by successfully handled
messages whose channel announcements have distinct endpoints. -/
inductive ReachableWF : NetworkMap → Prop
  | base (pk : Nat) : ReachableWF (routerNew pk)
  | step {net : NetworkMap} {op : Op} {net' : NetworkMap} :
      ReachableWF net → opWellFormed op → applyOp net op = .ok net' →
      ReachableWF net'

/-! ## The pathfinder (`get_route`) -/

/-- A heap entry (`RouteGraphNode`). -/
structure RouteGraphNode where
  pubkey : Nat
  lowest_fee_to_peer_through_node : Nat
deriving DecidableEq, Repr

/-- The `Ord` instance reverses both comparisons, so `BinaryHeap::pop`
returns the entry with the smallest fee, ties broken toward the smallest
serialized public key: `a` is popped before `b` iff this holds. -/
def rgnPopsBefore (a b : RouteGraphNode) : Bool :=
  (a.lowest_fee_to_peer_through_node < b.lowest_fee_to_peer_through_node) ||
    ((a.lowest_fee_to_peer_through_node = b.lowest_fee_to_peer_through_node) &&
      a.pubkey < b.pubkey)

/-- `BinaryHeap::pop` on the modelled heap: extract the entry that pops
first, keeping the rest. -/
def popBest : List RouteGraphNode → Option (RouteGraphNode × List RouteGraphNode)
  | [] => none
  | x :: xs =>
    match popBest xs with
    | none => some (x, [])
    | some (b, rest) =>
      if rgnPopsBefore b x then some (b, x :: rest) else some (x, xs)

/-- One entry of the `dist` table:
`(lowest fee, node.lowest_inbound_channel_fee_base_msat,
node.lowest_inbound_channel_fee_proportional_millionths, RouteHop)`. -/
structure DistEntry where
  fee : Nat
  lowest_inbound_base : Nat
  lowest_inbound_prop : Nat
  hop : RouteHop
deriving DecidableEq, Repr

/-- Mutable state of the search: the `targets` heap and the `dist` table. -/
structure SearchState where
  targets : List RouteGraphNode
  dist : List (Nat × DistEntry)
deriving DecidableEq, Repr

/-- The two `total_fee +=` lines of `add_entry!` for a non-local source:
starting from `t` (the accumulated fee including `new_fee`), add the
A*-heuristic component
`old_entry.2 * (final_value_msat + total_fee) / 1000000 + old_entry.1`. -/
def heuristicTotal (t base prop final_value_msat : Nat) : Nat :=
  uadd t (uadd (udiv (umul prop (uadd final_value_msat t)) 1000000) base)

/-- The fee derivation at pop time (`get_route`'s main loop):
`fee = lowest_fee_to_peer_through_node - node.lowest_inbound_channel_fee_base_msat`
then `fee -= node.lowest_inbound_channel_fee_proportional_millionths * (fee + final_value_msat) / 1000000`. -/
def popDerivedFee (popped_fee base prop final_value_msat : Nat) : Nat :=
  let fee := usub popped_fee base
  usub fee (udiv (umul prop (uadd fee final_value_msat)) 1000000)

/-- The `add_entry!` macro: relax one directional edge whose policy fields
are `src_node_id`, `cltv_expiry_delta`, `htlc_minimum_msat`, `fee_base_msat`,
`fee_proportional_millionths`, entering `dest_node_id` over channel
`chan_id`, with accumulated fee `starting_fee_msat`.  Skips the edge unless
`starting_fee_msat + final_value_msat > htlc_minimum_msat`; ignores `new_fee`
and the A* component when the source is the local node; pushes a heap entry
and overwrites the dist entry only on strict improvement. -/
def addEntry (our_node_id final_value_msat : Nat) (chan_id dest_node_id : Nat)
    (src_node_id cltv_expiry_delta htlc_minimum_msat fee_base_msat
      fee_proportional_millionths : Nat)
    (starting_fee_msat : Nat) (st : SearchState) : Except RouterErr SearchState :=
  if uadd starting_fee_msat final_value_msat > htlc_minimum_msat then
    let new_fee := uadd fee_base_msat
      (udiv (umul (uadd starting_fee_msat final_value_msat)
        fee_proportional_millionths) 1000000)
    match alistLookup st.dist src_node_id with
    | none => .error .panicked
    | some old_entry =>
      let total_fee : Nat :=
        if src_node_id ≠ our_node_id then
          heuristicTotal (uadd starting_fee_msat new_fee)
            old_entry.lowest_inbound_base old_entry.lowest_inbound_prop
            final_value_msat
        else starting_fee_msat
      if old_entry.fee > total_fee then
        .ok { targets := ⟨src_node_id, total_fee⟩ :: st.targets
              dist := alistInsert st.dist src_node_id
                { fee := total_fee
                  lowest_inbound_base := old_entry.lowest_inbound_base
                  lowest_inbound_prop := old_entry.lowest_inbound_prop
                  hop := { pubkey := dest_node_id, short_channel_id := chan_id,
                           fee_msat := new_fee,
                           cltv_expiry_delta := cltv_expiry_delta } } }
      else .ok st
  else .ok st

/-- `add_entry!` applied to a `DirectionalChannelInfo`. -/
def addEntryDir (our_node_id final_value_msat chan_id dest_node_id : Nat)
    (info : DirectionalChannelInfo) (starting_fee_msat : Nat)
    (st : SearchState) : Except RouterErr SearchState :=
  addEntry our_node_id final_value_msat chan_id dest_node_id
    info.src_node_id info.cltv_expiry_delta info.htlc_minimum_msat
    info.fee_base_msat info.fee_proportional_millionths starting_fee_msat st

/-- `add_entry!` applied to a `RouteHint` (an ephemeral edge into `target`). -/
def addEntryHint (our_node_id final_value_msat : Nat) (hop : RouteHint)
    (target starting_fee_msat : Nat) (st : SearchState) :
    Except RouterErr SearchState :=
  addEntry our_node_id final_value_msat hop.short_channel_id target
    hop.src_node_id hop.cltv_expiry_delta hop.htlc_minimum_msat
    hop.fee_base_msat hop.fee_proportional_millionths starting_fee_msat st

/-- Loop body of `add_entries_to_cheapest_to_target_node!` for one channel
id: look the channel up (`.unwrap()`), pick the direction whose reverse
points at `node_id`, and relax it only if that direction is enabled. -/
def addEntriesChanStep (net : NetworkMap) (final_value_msat node_id
    fee_to_target_msat : Nat) (st : SearchState) (chan_id : Nat) :
    Except RouterErr SearchState :=
  match net.channels chan_id with
  | none => .error .panicked
  | some chan =>
    if chan.one_to_two.src_node_id = node_id then
      if chan.two_to_one.enabled then
        addEntryDir net.our_node_id final_value_msat chan_id
          chan.one_to_two.src_node_id chan.two_to_one fee_to_target_msat st
      else .ok st
    else
      if chan.one_to_two.enabled then
        addEntryDir net.our_node_id final_value_msat chan_id
          chan.two_to_one.src_node_id chan.one_to_two fee_to_target_msat st
      else .ok st

/-- `add_entries_to_cheapest_to_target_node!`: fold the node's channel list
with `addEntriesChanStep`. -/
def addEntriesToCheapest (net : NetworkMap) (final_value_msat node_id
    fee_to_target_msat : Nat) : List Nat → SearchState →
    Except RouterErr SearchState
  | [], st => .ok st
  | chan_id :: rest, st =>
    match addEntriesChanStep net final_value_msat node_id fee_to_target_msat
        st chan_id with
    | .error e => .error e
    | .ok st' =>
      addEntriesToCheapest net final_value_msat node_id fee_to_target_msat
        rest st'

/-- Path reconstruction loop: the hop list built so far is `acc ++ [last]`;
while `last.pubkey` differs from `target`, remove the next dist entry
(`.unwrap()`), copy its hop's `fee_msat` and `cltv_expiry_delta` onto `last`
and push the new hop; on exit patch the final hop with `final_value_msat`
and `final_cltv`. -/
def buildGo (target final_value_msat final_cltv : Nat) :
    Nat → List RouteHop → RouteHop → List (Nat × DistEntry) →
    Except RouterErr Route
  | 0, _, _, _ => .error .outOfFuel
  | fuel + 1, acc, last, dist =>
    if last.pubkey = target then
      let patched : RouteHop :=
        { last with fee_msat := final_value_msat, cltv_expiry_delta := final_cltv }
      .ok ⟨acc ++ [patched]⟩
    else
      match alistRemove dist last.pubkey with
      | none => .error .panicked
      | some (new_entry, dist') =>
        let copied : RouteHop :=
          { last with fee_msat := new_entry.hop.fee_msat,
                      cltv_expiry_delta := new_entry.hop.cltv_expiry_delta }
        buildGo target final_value_msat final_cltv fuel
          (acc ++ [copied]) new_entry.hop dist'

/-- Reconstruction entry point: start from the local node's dist entry
(`dist.remove(&our_node_id).unwrap().3`). -/
def buildRoute (net : NetworkMap) (target final_value_msat final_cltv : Nat)
    (dist : List (Nat × DistEntry)) : Except RouterErr Route :=
  match alistRemove dist net.our_node_id with
  | none => .error .panicked
  | some (entry, dist') =>
    buildGo target final_value_msat final_cltv (dist'.length + 1) [] entry.hop
      dist'

/-- The `while let Some(RouteGraphNode { .. }) = targets.pop()` loop: an
empty heap is `NoPath`; popping the local node reconstructs the route;
popping any other node derives the outbound fee with `popDerivedFee` (from
the node-map caches) and relaxes every incident channel. -/
def routeLoop (net : NetworkMap) (target final_value_msat final_cltv : Nat) :
    Nat → SearchState → Except RouterErr Route
  | 0, _ => .error .outOfFuel
  | fuel + 1, st =>
    match popBest st.targets with
    | none => .error (.handle ⟨.NoPath, none⟩)
    | some (entry, rest) =>
      if entry.pubkey = net.our_node_id then
        buildRoute net target final_value_msat final_cltv st.dist
      else
        match alistLookup net.nodes entry.pubkey with
        | none => routeLoop net target final_value_msat final_cltv fuel
            ⟨rest, st.dist⟩
        | some node =>
          match addEntriesToCheapest net final_value_msat entry.pubkey
              (popDerivedFee entry.lowest_fee_to_peer_through_node
                node.lowest_inbound_channel_fee_base_msat
                node.lowest_inbound_channel_fee_proportional_millionths
                final_value_msat)
              node.channels ⟨rest, st.dist⟩ with
          | .error e => .error e
          | .ok st' => routeLoop net target final_value_msat final_cltv fuel st'

/-- Seed the search with the `last_hops` hints whose source node is known to
the graph. -/
def seedHints (net : NetworkMap) (target final_value_msat : Nat) :
    List RouteHint → SearchState → Except RouterErr SearchState
  | [], st => .ok st
  | hop :: rest, st =>
    if (alistLookup net.nodes hop.src_node_id).isSome then
      match addEntryHint net.our_node_id final_value_msat hop target 0 st with
      | .error e => .error e
      | .ok st' => seedHints net target final_value_msat rest st'
    else seedHints net target final_value_msat rest st

/-- The placeholder `RouteHop` every dist entry starts with
(`PublicKey::new()` modelled as key `0`). -/
def placeholderHop : RouteHop :=
  { pubkey := 0, short_channel_id := 0, fee_msat := 0, cltv_expiry_delta := 0 }

/-- `get_route`: refuse routing to ourselves, initialise `dist` from the node
map (sentinel fee, cached lowest-inbound fees, placeholder hop), seed from
the channels into `target` and the usable hints, then run the main loop. -/
def getRoute (net : NetworkMap) (target : Nat) (last_hops : List RouteHint)
    (final_value_msat final_cltv fuel : Nat) : Except RouterErr Route :=
  if target = net.our_node_id then
    .error (.handle ⟨.RouteToSelf, none⟩)
  else
    let dist0 : List (Nat × DistEntry) := net.nodes.map fun kv =>
      (kv.1, { fee := U64MAX
               lowest_inbound_base := kv.2.lowest_inbound_channel_fee_base_msat
               lowest_inbound_prop :=
                 kv.2.lowest_inbound_channel_fee_proportional_millionths
               hop := placeholderHop })
    let seeded : Except RouterErr SearchState :=
      match alistLookup net.nodes target with
      | none => .ok ⟨[], dist0⟩
      | some node =>
        addEntriesToCheapest net final_value_msat target 0 node.channels
          ⟨[], dist0⟩
    match seeded with
    | .error e => .error e
    | .ok st1 =>
      match seedHints net target final_value_msat last_hops st1 with
      | .error e => .error e
      | .ok st2 => routeLoop net target final_value_msat final_cltv fuel st2

/-! ## Spec-side comparison definitions -/

/-- Modelled from the spec: the pop-time staleness discard the spec describes
("stale pops are discarded by comparing to the stored best").  Identical to
`routeLoop` except that a popped entry whose fee is strictly greater than the
fee currently stored in the `dist` table for that node is dropped without any
relaxation.  This definition follows the spec's words; the source has no such
check. -/
def routeLoopPopCheck (net : NetworkMap)
    (target final_value_msat final_cltv : Nat) :
    Nat → SearchState → Except RouterErr Route
  | 0, _ => .error .outOfFuel
  | fuel + 1, st =>
    match popBest st.targets with
    | none => .error (.handle ⟨.NoPath, none⟩)
    | some (entry, rest) =>
      let isStale : Bool :=
        match alistLookup st.dist entry.pubkey with
        | some d => decide (d.fee < entry.lowest_fee_to_peer_through_node)
        | none => false
      if isStale then
        routeLoopPopCheck net target final_value_msat final_cltv fuel
          ⟨rest, st.dist⟩
      else if entry.pubkey = net.our_node_id then
        buildRoute net target final_value_msat final_cltv st.dist
      else
        match alistLookup net.nodes entry.pubkey with
        | none => routeLoopPopCheck net target final_value_msat final_cltv fuel
            ⟨rest, st.dist⟩
        | some node =>
          match addEntriesToCheapest net final_value_msat entry.pubkey
              (popDerivedFee entry.lowest_fee_to_peer_through_node
                node.lowest_inbound_channel_fee_base_msat
                node.lowest_inbound_channel_fee_proportional_millionths
                final_value_msat)
              node.channels ⟨rest, st.dist⟩ with
          | .error e => .error e
          | .ok st' => routeLoopPopCheck net target final_value_msat final_cltv
              fuel st'

/-- Modelled from the spec: `getRoute` with the pop-time staleness discard. -/
def getRoutePopCheck (net : NetworkMap) (target : Nat)
    (last_hops : List RouteHint) (final_value_msat final_cltv fuel : Nat) :
    Except RouterErr Route :=
  if target = net.our_node_id then
    .error (.handle ⟨.RouteToSelf, none⟩)
  else
    let dist0 : List (Nat × DistEntry) := net.nodes.map fun kv =>
      (kv.1, { fee := U64MAX
               lowest_inbound_base := kv.2.lowest_inbound_channel_fee_base_msat
               lowest_inbound_prop :=
                 kv.2.lowest_inbound_channel_fee_proportional_millionths
               hop := placeholderHop })
    let seeded : Except RouterErr SearchState :=
      match alistLookup net.nodes target with
      | none => .ok ⟨[], dist0⟩
      | some node =>
        addEntriesToCheapest net final_value_msat target 0 node.channels
          ⟨[], dist0⟩
    match seeded with
    | .error e => .error e
    | .ok st1 =>
      match seedHints net target final_value_msat last_hops st1 with
      | .error e => .error e
      | .ok st2 => routeLoopPopCheck net target final_value_msat final_cltv
          fuel st2

/-- A directional record `d` of channel `ch` points toward node `N` when the
opposite record's source is `N` (the `one_to_two` direction carries payments
from `one_to_two.src_node_id` to `two_to_one.src_node_id`). -/
def pointsToward (ch : ChannelInfo) (d : DirectionalChannelInfo) (N : Nat) : Prop :=
  (d = ch.one_to_two ∧ ch.two_to_one.src_node_id = N) ∨
  (d = ch.two_to_one ∧ ch.one_to_two.src_node_id = N)

/-- The `(fee_base_msat, fee_proportional_millionths)` pairs of the enabled
directional records of channel `cid` pointing toward `N`. -/
def inboundFeesOf (net : NetworkMap) (N cid : Nat) : List (Nat × Nat) :=
  match net.channels cid with
  | none => []
  | some ch =>
    (if ch.two_to_one.src_node_id = N ∧ ch.one_to_two.enabled = true then
      [(ch.one_to_two.fee_base_msat, ch.one_to_two.fee_proportional_millionths)]
    else []) ++
    (if ch.one_to_two.src_node_id = N ∧ ch.two_to_one.enabled = true then
      [(ch.two_to_one.fee_base_msat, ch.two_to_one.fee_proportional_millionths)]
    else [])

/-- The quantity claim C1 asserts the base cache equals: the minimum
`fee_base_msat` over all enabled directional records pointing toward `N`
across `N`'s channels, or `u32::max_value()` when that set is empty.
This definition follows the claim's words, for comparison with the
cache the code actually maintains. -/
def claimedMinInboundBase (net : NetworkMap) (N : Nat) : Nat :=
  match alistLookup net.nodes N with
  | none => U32MAX
  | some info =>
    (info.channels.flatMap (inboundFeesOf net N)).foldl (fun b fp => min b fp.1)
      U32MAX

/-! ## Concrete networks and messages used by witnesses and counterexamples -/

/-- Helper constructor for a `NodeInfo` with given channel list and caches. -/
def mkNodeInfo (chans : List Nat) (base prop : Nat) : NodeInfo :=
  { channels := chans
    lowest_inbound_channel_fee_base_msat := base
    lowest_inbound_channel_fee_proportional_millionths := prop
    features := GlobalFeatures.new
    last_update := 0
    rgb := [0, 0, 0]
    alias_bytes := List.replicate 32 0
    addresses := [] }

/-- Helper constructor for a directional record. -/
def mkDir (src : Nat) (en : Bool) (cltv htlcMin feeBase feeProp : Nat) :
    DirectionalChannelInfo :=
  { src_node_id := src
    last_update := 0
    enabled := en
    cltv_expiry_delta := cltv
    htlc_minimum_msat := htlcMin
    fee_base_msat := feeBase
    fee_proportional_millionths := feeProp }

/-- Helper constructor for a channel. -/
def mkChan (d1 d2 : DirectionalChannelInfo) : ChannelInfo :=
  { features := GlobalFeatures.new, one_to_two := d1, two_to_one := d2 }

/-- A 22-node line graph `0 - 1 - ... - 21` (local node `0`): channel `i`
joins `i-1` and `i`, enabled and free in the `i-1 → i` direction.  The only
route from `0` to `21` has 21 hops. -/
def chainNet : NetworkMap :=
  { channels := fun k =>
      if 1 ≤ k ∧ k ≤ 21 then
        some (mkChan (mkDir (k - 1) true 0 0 0 0) (mkDir k false 0 0 0 0))
      else none
    our_node_id := 0
    nodes := (List.range 22).map fun i =>
      (i, mkNodeInfo (if i = 0 then [1] else if i = 21 then [21] else [i, i + 1])
        0 0) }

/-- Two nodes, one enabled zero-fee channel from the local node `0` to `1`. -/
def oneHopNet : NetworkMap :=
  { channels := fun k =>
      if k = 1 then some (mkChan (mkDir 0 true 9 0 0 0) (mkDir 1 false 0 0 0 0))
      else none
    our_node_id := 0
    nodes := [(0, mkNodeInfo [1] 0 0), (1, mkNodeInfo [1] 0 0)] }

/-- The graph exhibiting the missing pop-time staleness check.  Local node
`0`, nodes `1`, `2`, target `3`.  Channel 1 (`1 → 3`) costs 1000 msat;
channel 2 (`2 → 3`) and channel 3 (`1 → 2`) are free, so node `1` first
receives a heap entry at fee 1000 and then an improved one at fee 0.
Channel 4 (`0 → 1`) has `htlc_minimum_msat = 500`: relaxing it is possible
only with the stale fee 1000 (the fresh pop at fee 0 fails the
`0 + 100 > 500` test). -/
def c3Net : NetworkMap :=
  { channels := fun k =>
      if k = 1 then some (mkChan (mkDir 1 true 11 0 1000 0) (mkDir 3 false 0 0 0 0))
      else if k = 2 then some (mkChan (mkDir 2 true 12 0 0 0) (mkDir 3 false 0 0 0 0))
      else if k = 3 then some (mkChan (mkDir 1 true 13 0 0 0) (mkDir 2 false 0 0 0 0))
      else if k = 4 then some (mkChan (mkDir 0 true 14 500 0 0) (mkDir 1 false 0 0 0 0))
      else none
    our_node_id := 0
    nodes := [(0, mkNodeInfo [4] 0 0), (1, mkNodeInfo [1, 3, 4] 0 0),
              (2, mkNodeInfo [2, 3] 0 0), (3, mkNodeInfo [1, 2] 0 0)] }

/-- Channel announcement for channel 5 between nodes 1 and 2. -/
def c1Ann : ChannelAnnouncement := ⟨true, ⟨GlobalFeatures.new, 0, 5, 1, 2, 0, 0⟩⟩

/-- Enabling update of channel 5's `one_to_two` (node 1 → node 2) at
timestamp 1 with `fee_base_msat = 100`, `fee_proportional_millionths = 7`. -/
def c1Upd1 : ChannelUpdate := ⟨true, ⟨0, 5, 1, 0, 4, 0, 100, 7⟩⟩

/-- Second enabling update of the same direction at timestamp 2 raising the
fees to `fee_base_msat = 200`, `fee_proportional_millionths = 9`. -/
def c1Upd2 : ChannelUpdate := ⟨true, ⟨0, 5, 2, 0, 4, 0, 200, 9⟩⟩

/-- State after `Router::new(0)` and the channel announcement. -/
def c1Net1 : NetworkMap := stepOk (routerNew 0) (.chanAnn c1Ann)

/-- State after the first (enabling, fee 100) channel update. -/
def c1Net2 : NetworkMap := stepOk c1Net1 (.chanUpd c1Upd1)

/-- State after the second (still enabled, fee 200) channel update. -/
def c1Net3 : NetworkMap := stepOk c1Net2 (.chanUpd c1Upd2)

/-- Channel announcement for channel 7 between the local node 0 and node 1. -/
def c10Ann : ChannelAnnouncement := ⟨true, ⟨GlobalFeatures.new, 0, 7, 0, 1, 0, 0⟩⟩

/-- State reached by announcing channel 7 and then processing
`ChannelClosed { short_channel_id: 7 }`: the channel map no longer holds 7
but both endpoints' channel lists still do. -/
def c10Net : NetworkMap :=
  stepOk (stepOk (routerNew 0) (.chanAnn c10Ann)) (.htlcFail (.ChannelClosed 7))

/-! ## Invariants -/

/-- The amended cache invariant: every node's cached lowest-inbound fees are
lower bounds for the fees of the enabled directional records pointing toward
it. -/
def CacheLowerBound (net : NetworkMap) : Prop :=
  ∀ N info, alistLookup net.nodes N = some info →
    ∀ cid ch d, net.channels cid = some ch → pointsToward ch d N →
      d.enabled = true →
      info.lowest_inbound_channel_fee_base_msat ≤ d.fee_base_msat ∧
      info.lowest_inbound_channel_fee_proportional_millionths ≤
        d.fee_proportional_millionths

/-- Every channel's endpoints are present in the node map and list the
channel among their channel ids. -/
def ChannelsListed (net : NetworkMap) : Prop :=
  ∀ cid ch, net.channels cid = some ch →
    (∃ i, alistLookup net.nodes ch.one_to_two.src_node_id = some i ∧
      cid ∈ i.channels) ∧
    (∃ i, alistLookup net.nodes ch.two_to_one.src_node_id = some i ∧
      cid ∈ i.channels)

/-- Every channel's two directional sources are distinct (the spec's
data-model invariant on channel endpoints). -/
def DistinctEndpoints (net : NetworkMap) : Prop :=
  ∀ cid ch, net.channels cid = some ch →
    ch.one_to_two.src_node_id ≠ ch.two_to_one.src_node_id

/-- The inductive invariant carried across handler calls. -/
def RouterInv (net : NetworkMap) : Prop :=
  CacheLowerBound net ∧ ChannelsListed net ∧ DistinctEndpoints net

/-! ## Association-list lemmas -/

theorem alistLookup_insert_self {α : Type} (l : List (Nat × α)) (k : Nat) (v : α) :
    alistLookup (alistInsert l k v) k = some v := by
  induction l with
  | nil => simp [alistInsert, alistLookup]
  | cons hd tl ih =>
    obtain ⟨k', w⟩ := hd
    by_cases hk : k' = k
    · subst hk; simp [alistInsert, alistLookup]
    · simp [alistInsert, alistLookup, hk, ih]

theorem alistLookup_insert_ne {α : Type} (l : List (Nat × α)) (k k' : Nat) (v : α)
    (h : k' ≠ k) : alistLookup (alistInsert l k v) k' = alistLookup l k' := by
  have hne : k ≠ k' := fun hh => h hh.symm
  induction l with
  | nil => simp [alistInsert, alistLookup, hne]
  | cons hd tl ih =>
    obtain ⟨k0, w⟩ := hd
    by_cases hk : k0 = k
    · subst hk
      simp only [alistInsert, if_pos rfl]
      simp [alistLookup, hne]
    · simp only [alistInsert, if_neg hk]
      by_cases hk' : k0 = k'
      · simp [alistLookup, hk']
      · simp [alistLookup, hk', ih]

/-! ## Claim C4: the pop-time fee derivation -/

/-- Claim C4 as stated is false: with cached base fee `0`, cached
proportional fee `500000` (50 percent), payment amount `1000000` and
accumulated fee `1000000`, the relaxation stores
`heuristicTotal 1000000 0 500000 1000000 = 2000000`, and the pop-time
derivation returns `500000`, not the original `1000000` — integer division
makes the subtraction inexact. -/
theorem C4_counterexample :
    popDerivedFee (heuristicTotal 1000000 0 500000 1000000) 0 500000 1000000
      ≠ 1000000 := by decide

/-- Claim C4 amended: the pop-time derivation inverts the A*-heuristic
addition exactly whenever the node's cached
`lowest_inbound_channel_fee_proportional_millionths` is zero (as long as the
`u64` addition does not wrap); in general the integer divisions make the
two computations differ. -/
theorem C4_amended (t base final_value_msat : Nat) (h : t + base < U64LIM) :
    popDerivedFee (heuristicTotal t base 0 final_value_msat) base 0
      final_value_msat = t := by
  simp only [popDerivedFee, heuristicTotal, uadd, usub, umul, udiv, U64LIM]
  simp only [U64LIM] at h
  omega

/-- Witness for `C4_amended` at `t = 7`, `base = 5`, amount `100`. -/
theorem C4_amended_witness :
    popDerivedFee (heuristicTotal 7 5 0 100) 5 0 100 = 7 :=
  C4_amended 7 5 100 (by decide)

/-! ## Claim C10: channel close leaves dangling ids -/

/-- Claim C10: `ChannelClosed` removes the channel from the channel map but
touches no node's channel list; on the concrete reachable state `c10Net`
(announce channel 7 between the local node and node 1, then close it) the
node map still lists channel 7 for node 1 while the channel map no longer
holds it, and `get_route` to node 1 hits the `.unwrap()` of the missing
channel entry — a panic, so `get_route` is not total on such graphs. -/
theorem C10_close_dangling_unwrap :
    (∀ (net : NetworkMap) (cid : Nat), ∃ net',
      handleHtlcFailChannelUpdate net (.ChannelClosed cid) = .ok net' ∧
      net'.channels cid = none ∧ net'.nodes = net.nodes) ∧
    (c10Net.channels 7 = none ∧
      (∃ info, alistLookup c10Net.nodes 1 = some info ∧ 7 ∈ info.channels) ∧
      getRoute c10Net 1 [] 100 42 10 = .error .panicked) := by
  constructor
  · intro net cid
    refine ⟨_, rfl, ?_, rfl⟩
    simp [handleHtlcFailChannelUpdate]
  · refine ⟨rfl, ⟨mkNodeInfo [7] U32MAX U32MAX, rfl, by decide⟩, rfl⟩

/-! ## Claim C3: no pop-time staleness discard -/

/-- Claim C3 as stated is false: on `c3Net` the stale pop of node 1 (fee
1000, after its dist entry improved to 0) still relaxes channel 4, whose
`htlc_minimum_msat = 500` gate only passes with the stale fee; the source
code therefore finds a route, while the spec-described loop with a pop-time
staleness discard (`getRoutePopCheck`) exhausts the heap and fails with
`NoPath`.  Had the code discarded stale pops without relaxing, the two
results would agree. -/
theorem C3_counterexample :
    getRoute c3Net 3 [] 100 42 20 =
      .ok ⟨[⟨1, 4, 0, 13⟩, ⟨2, 3, 0, 12⟩, ⟨3, 2, 100, 42⟩]⟩ ∧
    getRoutePopCheck c3Net 3 [] 100 42 20 =
      .error (.handle ⟨.NoPath, none⟩) := by
  exact ⟨by rfl, by rfl⟩

/-- Claim C3 amended: there is no pop-time comparison against the dist
table — a popped stale entry still relaxes the node's incident channels with
the stale fee — and staleness is instead mitigated edge by edge inside
`add_entry`, which leaves the heap and the dist table unchanged unless the
freshly computed total fee strictly improves the stored best for the edge's
source; any update it does make strictly decreases that entry and touches no
other. -/
theorem C3_amended (our fv cid dest src cltv hm fb fp start : Nat)
    (st st' : SearchState)
    (h : addEntry our fv cid dest src cltv hm fb fp start st = .ok st') :
    st' = st ∨
    ∃ old e', alistLookup st.dist src = some old ∧
      alistLookup st'.dist src = some e' ∧ e'.fee < old.fee ∧
      (∀ x, x ≠ src → alistLookup st'.dist x = alistLookup st.dist x) := by
  simp only [addEntry] at h
  split at h
  · split at h
    · exact absurd h (by simp)
    · rename_i old_entry hlook
      split at h <;> split at h
      · rename_i hlt
        right
        cases h
        exact ⟨old_entry, _, hlook, alistLookup_insert_self .., by simpa using hlt,
          fun x hx => alistLookup_insert_ne _ _ _ _ hx⟩
      · cases h
        exact Or.inl rfl
      · rename_i hlt
        right
        cases h
        exact ⟨old_entry, _, hlook, alistLookup_insert_self .., by simpa using hlt,
          fun x hx => alistLookup_insert_ne _ _ _ _ hx⟩
      · cases h
        exact Or.inl rfl
  · cases h
    exact Or.inl rfl

/-- Witness for `C3_amended`: relaxing a zero-fee eligible edge into node 1
from starting fee 0 strictly improves its stored fee 10. -/
theorem C3_amended_witness :
    (⟨[⟨1, 0⟩], [(1, ⟨0, 0, 0, ⟨2, 1, 0, 5⟩⟩)]⟩ : SearchState) =
      (⟨[], [(1, ⟨10, 0, 0, placeholderHop⟩)]⟩ : SearchState) ∨
    ∃ old e',
      alistLookup (⟨[], [(1, ⟨10, 0, 0, placeholderHop⟩)]⟩ : SearchState).dist 1 =
        some old ∧
      alistLookup (⟨[⟨1, 0⟩], [(1, ⟨0, 0, 0, ⟨2, 1, 0, 5⟩⟩)]⟩ : SearchState).dist 1 =
        some e' ∧
      e'.fee < old.fee ∧
      (∀ x, x ≠ 1 →
        alistLookup (⟨[⟨1, 0⟩], [(1, ⟨0, 0, 0, ⟨2, 1, 0, 5⟩⟩)]⟩ : SearchState).dist x =
        alistLookup (⟨[], [(1, ⟨10, 0, 0, placeholderHop⟩)]⟩ : SearchState).dist x) :=
  C3_amended 0 100 1 2 1 5 0 0 0 0 _ _ rfl

/-! ## Claim C7: duplicate channel announcements -/

/-- Claim C7: a channel announcement with valid signatures and no unknown
required feature bits, for a channel key already present, fails with the
soft `Duplicate` error, and the router state is unchanged — the first
announcement wins. -/
theorem C7_duplicate_announcement (net : NetworkMap) (msg : ChannelAnnouncement)
    (hsig : msg.signatures_valid = true)
    (hfeat : msg.contents.features.requiresUnknownBits = false)
    (hdup : (net.channels msg.contents.short_channel_id).isSome = true) :
    handleChannelAnnouncement net msg =
      .error (.handle ⟨.Duplicate, some .IgnoreError⟩) ∧
    stepOk net (.chanAnn msg) = net := by
  obtain ⟨c, hc⟩ := Option.isSome_iff_exists.mp hdup
  have h1 : handleChannelAnnouncement net msg =
      .error (.handle ⟨.Duplicate, some .IgnoreError⟩) := by
    simp [handleChannelAnnouncement, hsig, hfeat, hc]
  exact ⟨h1, by simp [stepOk, applyOp, h1, Except.map]⟩

/-- Witness for `C7_duplicate_announcement`: re-announcing channel 5 on
`c1Net1` is rejected as a duplicate and mutates nothing. -/
theorem C7_witness :
    handleChannelAnnouncement c1Net1 c1Ann =
      .error (.handle ⟨.Duplicate, some .IgnoreError⟩) ∧
    stepOk c1Net1 (.chanAnn c1Ann) = c1Net1 :=
  C7_duplicate_announcement c1Net1 c1Ann rfl rfl rfl

/-! ## Claim C8: node announcements -/

/-- Claim C8: with a valid signature, a node announcement fails soft with
`NoKnownChannels` when the node is absent, fails soft with `Stale` when the
timestamp does not exceed the stored `last_update`, and otherwise overwrites
exactly the node's features, `last_update`, RGB, alias and addresses — its
channel list and lowest-inbound-fee caches are carried over unchanged, and
no other node is touched. -/
theorem C8_node_announcement :
    (∀ (net : NetworkMap) (msg : NodeAnnouncement),
      msg.signature_valid = true →
      alistLookup net.nodes msg.contents.node_id = none →
      handleNodeAnnouncement net msg =
        .error (.handle ⟨.NoKnownChannels, some .IgnoreError⟩)) ∧
    (∀ (net : NetworkMap) (msg : NodeAnnouncement) (node : NodeInfo),
      msg.signature_valid = true →
      alistLookup net.nodes msg.contents.node_id = some node →
      msg.contents.timestamp ≤ node.last_update →
      handleNodeAnnouncement net msg =
        .error (.handle ⟨.Stale, some .IgnoreError⟩)) ∧
    (∀ (net : NetworkMap) (msg : NodeAnnouncement) (node : NodeInfo),
      msg.signature_valid = true →
      alistLookup net.nodes msg.contents.node_id = some node →
      node.last_update < msg.contents.timestamp →
      ∃ net', handleNodeAnnouncement net msg = .ok net' ∧
        net'.channels = net.channels ∧ net'.our_node_id = net.our_node_id ∧
        alistLookup net'.nodes msg.contents.node_id = some
          { node with features := msg.contents.features,
                      last_update := msg.contents.timestamp,
                      rgb := msg.contents.rgb,
                      alias_bytes := msg.contents.alias_bytes,
                      addresses := msg.contents.addresses } ∧
        (∀ other, other ≠ msg.contents.node_id →
          alistLookup net'.nodes other = alistLookup net.nodes other)) := by
  refine ⟨?_, ?_, ?_⟩
  · intro net msg hsig hnone
    simp [handleNodeAnnouncement, hsig, hnone]
  · intro net msg node hsig hsome hts
    simp [handleNodeAnnouncement, hsig, hsome, hts]
  · intro net msg node hsig hsome hts
    have hlt : ¬ (node.last_update ≥ msg.contents.timestamp) := by omega
    have heq : handleNodeAnnouncement net msg = .ok { net with nodes := alistInsert net.nodes msg.contents.node_id { node with features := msg.contents.features, last_update := msg.contents.timestamp, rgb := msg.contents.rgb, alias_bytes := msg.contents.alias_bytes, addresses := msg.contents.addresses } } := by
      simp [handleNodeAnnouncement, hsig, hsome, hlt]
    refine ⟨_, heq, rfl, rfl, alistLookup_insert_self .., ?_⟩
    intro other hother
    exact alistLookup_insert_ne _ _ _ _ hother

/-- Witness for `C8_node_announcement`: on `c1Net1`, announcing unknown node
9 fails with `NoKnownChannels`; a stale announcement of node 0 fails with
`Stale`; a fresh announcement of node 1 overwrites its metadata. -/
theorem C8_witness :
    handleNodeAnnouncement c1Net1 ⟨true, ⟨GlobalFeatures.new, 1, 9, [], [], []⟩⟩ =
      .error (.handle ⟨.NoKnownChannels, some .IgnoreError⟩) ∧
    handleNodeAnnouncement c1Net1 ⟨true, ⟨GlobalFeatures.new, 0, 0, [], [], []⟩⟩ =
      .error (.handle ⟨.Stale, some .IgnoreError⟩) ∧
    ∃ net', handleNodeAnnouncement c1Net1
        ⟨true, ⟨GlobalFeatures.new, 3, 1, [1, 2, 3], [7], [8]⟩⟩ = .ok net' ∧
      net'.channels = c1Net1.channels ∧ net'.our_node_id = c1Net1.our_node_id ∧
      alistLookup net'.nodes 1 = some
        { (mkNodeInfo [5] U32MAX U32MAX) with
            features := GlobalFeatures.new, last_update := 3,
            rgb := [1, 2, 3], alias_bytes := [7], addresses := [8] } ∧
      (∀ other, other ≠ 1 →
        alistLookup net'.nodes other = alistLookup c1Net1.nodes other) := by
  refine ⟨?_, ?_, ?_⟩
  · exact C8_node_announcement.1 c1Net1 _ rfl rfl
  · exact C8_node_announcement.2.1 c1Net1 _ (mkNodeInfo [] U32MAX U32MAX) rfl rfl
      (by decide)
  · exact C8_node_announcement.2.2 c1Net1 _ (mkNodeInfo [5] U32MAX U32MAX) rfl rfl
      (by decide)

/-! ## Claim C5: channel-update staleness -/

/-- Every `ok` result of `cacheSection` carries the already-committed
channel map. -/
theorem cacheSection_ok_channels (net : NetworkMap) (channels' : ChanMap)
    (dest : Nat) (ce cw : Bool) (fb fp : Nat) (net' : NetworkMap)
    (h : cacheSection net channels' dest ce cw fb fp = .ok net') :
    net'.channels = channels' := by
  simp only [cacheSection] at h
  split at h
  · split at h
    · exact absurd h (by simp)
    · cases h; rfl
  · split at h
    · split at h
      · exact absurd h (by simp)
      · split at h
        · exact absurd h (by simp)
        · cases h; rfl
    · cases h; rfl

/-- Claim C5: with a valid signature and a known channel, an update whose
timestamp is at most the targeted directional record's stored `last_update`
fails with the soft `Stale` error and leaves the network map unchanged
(equality included); an accepted update stores exactly the message timestamp
in that record, which strictly exceeds the previous value. -/
theorem C5_update_staleness :
    (∀ (net : NetworkMap) (msg : ChannelUpdate) (channel : ChannelInfo),
      msg.signature_valid = true →
      net.channels msg.contents.short_channel_id = some channel →
      msg.contents.timestamp ≤
        (if msg.contents.flags &&& 1 = 1 then channel.two_to_one
         else channel.one_to_two).last_update →
      handleChannelUpdate net msg =
        .error (.handle ⟨.Stale, some .IgnoreError⟩) ∧
      stepOk net (.chanUpd msg) = net) ∧
    (∀ (net : NetworkMap) (msg : ChannelUpdate) (channel : ChannelInfo)
        (net' : NetworkMap),
      net.channels msg.contents.short_channel_id = some channel →
      handleChannelUpdate net msg = .ok net' →
      ∃ channel', net'.channels msg.contents.short_channel_id = some channel' ∧
        (if msg.contents.flags &&& 1 = 1 then channel'.two_to_one
         else channel'.one_to_two).last_update = msg.contents.timestamp ∧
        (if msg.contents.flags &&& 1 = 1 then channel.two_to_one
         else channel.one_to_two).last_update < msg.contents.timestamp) := by
  constructor
  · intro net msg channel hsig hchan hts
    by_cases hdir : msg.contents.flags &&& 1 = 1
    · rw [if_pos hdir] at hts
      have hge : channel.two_to_one.last_update ≥ msg.contents.timestamp := hts
      have h1 : handleChannelUpdate net msg =
          .error (.handle ⟨.Stale, some .IgnoreError⟩) := by
        simp [handleChannelUpdate, hchan, hsig, hdir, hge, -Nat.and_one_is_mod]
      exact ⟨h1, by simp [stepOk, applyOp, h1]⟩
    · rw [if_neg hdir] at hts
      have hge : channel.one_to_two.last_update ≥ msg.contents.timestamp := hts
      have h1 : handleChannelUpdate net msg =
          .error (.handle ⟨.Stale, some .IgnoreError⟩) := by
        simp [handleChannelUpdate, hchan, hsig, hdir, hge, -Nat.and_one_is_mod]
      exact ⟨h1, by simp [stepOk, applyOp, h1]⟩
  · intro net msg channel net' hchan hok
    simp only [handleChannelUpdate, hchan] at hok
    split at hok
    · exact absurd hok (by simp)
    · split at hok
      · rename_i hdir
        split at hok
        · exact absurd hok (by simp)
        · rename_i hstale
          have hch := cacheSection_ok_channels _ _ _ _ _ _ _ _ hok
          refine ⟨{ channel with
              two_to_one := updatedDirectionalInfo channel.two_to_one msg.contents },
            ?_, ?_, ?_⟩
          · rw [hch]; simp
          · rw [if_pos hdir]; rfl
          · rw [if_pos hdir]; omega
      · rename_i hdir
        split at hok
        · exact absurd hok (by simp)
        · rename_i hstale
          have hch := cacheSection_ok_channels _ _ _ _ _ _ _ _ hok
          refine ⟨{ channel with
              one_to_two := updatedDirectionalInfo channel.one_to_two msg.contents },
            ?_, ?_, ?_⟩
          · rw [hch]; simp
          · rw [if_neg hdir]; rfl
          · rw [if_neg hdir]; omega

/-- Witness for `C5_update_staleness`: on `c1Net2` (channel 5's `one_to_two`
carries `last_update = 1`), re-applying the timestamp-1 update fails `Stale`
and mutates nothing, while the timestamp-2 update is accepted and stores the
strictly larger timestamp. -/
theorem C5_witness :
    (handleChannelUpdate c1Net2 c1Upd1 =
        .error (.handle ⟨.Stale, some .IgnoreError⟩) ∧
      stepOk c1Net2 (.chanUpd c1Upd1) = c1Net2) ∧
    (∃ channel', c1Net3.channels 5 = some channel' ∧
      (if c1Upd2.contents.flags &&& 1 = 1 then channel'.two_to_one
       else channel'.one_to_two).last_update = c1Upd2.contents.timestamp ∧
      (if c1Upd2.contents.flags &&& 1 = 1 then
        (⟨GlobalFeatures.new, ⟨1, 1, true, 4, 0, 100, 7⟩,
          ⟨2, 0, false, U16MAX, U64MAX, U32MAX, U32MAX⟩⟩ : ChannelInfo).two_to_one
       else
        (⟨GlobalFeatures.new, ⟨1, 1, true, 4, 0, 100, 7⟩,
          ⟨2, 0, false, U16MAX, U64MAX, U32MAX, U32MAX⟩⟩ : ChannelInfo).one_to_two).last_update <
        c1Upd2.contents.timestamp) := by
  constructor
  · exact C5_update_staleness.1 c1Net2 c1Upd1
      ⟨GlobalFeatures.new, ⟨1, 1, true, 4, 0, 100, 7⟩,
        ⟨2, 0, false, U16MAX, U64MAX, U32MAX, U32MAX⟩⟩ rfl rfl (by decide)
  · exact C5_update_staleness.2 c1Net2 c1Upd2
      ⟨GlobalFeatures.new, ⟨1, 1, true, 4, 0, 100, 7⟩,
        ⟨2, 0, false, U16MAX, U64MAX, U32MAX, U32MAX⟩⟩ c1Net3 rfl rfl

/-! ## Claim C6: relaxation eligibility and the local-node fee exemption -/

/-- Claim C6: a directional record is relaxed only when enabled (a disabled
direction makes the per-channel step a no-op, on either side of the channel)
and only when `starting_fee_msat + final_value_msat` strictly exceeds its
`htlc_minimum_msat` (`add_entry` is a no-op otherwise, for any source
including the local node); when the edge's source is the local node and both
checks pass, the stored total fee is exactly `starting_fee_msat` — neither
the edge fee nor the A*-heuristic term is added — while the hop record still
carries the edge's `new_fee` and `cltv_expiry_delta`. -/
theorem C6_relaxation_gates :
    (∀ (our fv cid dest src cltv hm fb fp start : Nat) (st : SearchState),
      ¬ (uadd start fv > hm) →
      addEntry our fv cid dest src cltv hm fb fp start st = .ok st) ∧
    (∀ (net : NetworkMap) (fv node_id fee : Nat) (st : SearchState)
        (cid : Nat) (ch : ChannelInfo),
      net.channels cid = some ch →
      ch.one_to_two.src_node_id = node_id →
      ch.two_to_one.enabled = false →
      addEntriesChanStep net fv node_id fee st cid = .ok st) ∧
    (∀ (net : NetworkMap) (fv node_id fee : Nat) (st : SearchState)
        (cid : Nat) (ch : ChannelInfo),
      net.channels cid = some ch →
      ch.one_to_two.src_node_id ≠ node_id →
      ch.one_to_two.enabled = false →
      addEntriesChanStep net fv node_id fee st cid = .ok st) ∧
    (∀ (our fv cid dest cltv hm fb fp start : Nat) (st : SearchState)
        (old : DistEntry),
      uadd start fv > hm →
      alistLookup st.dist our = some old →
      old.fee > start →
      addEntry our fv cid dest our cltv hm fb fp start st =
        .ok { targets := ⟨our, start⟩ :: st.targets,
              dist := alistInsert st.dist our
                { fee := start, lowest_inbound_base := old.lowest_inbound_base,
                  lowest_inbound_prop := old.lowest_inbound_prop,
                  hop := ⟨dest, cid,
                    uadd fb (udiv (umul (uadd start fv) fp) 1000000), cltv⟩ } }) := by
  refine ⟨?_, ?_, ?_, ?_⟩
  · intro our fv cid dest src cltv hm fb fp start st hgate
    simp [addEntry, hgate]
  · intro net fv node_id fee st cid ch hch hsrc hdis
    simp [addEntriesChanStep, hch, hsrc, hdis]
  · intro net fv node_id fee st cid ch hch hsrc hdis
    simp [addEntriesChanStep, hch, hsrc, hdis]
  · intro our fv cid dest cltv hm fb fp start st old hgate hlook himp
    simp [addEntry, hgate, hlook, himp]

/-- Witness for `C6_relaxation_gates`: concrete instances of each clause —
an edge failing the htlc-minimum gate, a disabled direction on each side,
and a local-node edge relaxed at exactly the starting fee. -/
theorem C6_witness :
    addEntry 0 0 1 2 3 0 5 0 0 0 ⟨[], []⟩ = .ok ⟨[], []⟩ ∧
    addEntriesChanStep oneHopNet 100 0 0 ⟨[], []⟩ 1 = .ok ⟨[], []⟩ ∧
    addEntriesChanStep
      ⟨fun k => if k = 1 then
          some (mkChan (mkDir 5 false 0 0 0 0) (mkDir 6 false 0 0 0 0))
        else none, 0, []⟩ 100 9 0 ⟨[], []⟩ 1 = .ok ⟨[], []⟩ ∧
    addEntry 0 100 1 2 0 5 0 0 0 0
        ⟨[], [(0, ⟨10, 0, 0, placeholderHop⟩)]⟩ =
      .ok ⟨[⟨0, 0⟩], alistInsert [(0, ⟨10, 0, 0, placeholderHop⟩)] 0
        ⟨0, 0, 0, ⟨2, 1, uadd 0 (udiv (umul (uadd 0 100) 0) 1000000), 5⟩⟩⟩ := by
  refine ⟨?_, ?_, ?_, ?_⟩
  · exact C6_relaxation_gates.1 0 0 1 2 3 0 5 0 0 0 ⟨[], []⟩ (by decide)
  · exact C6_relaxation_gates.2.1 oneHopNet 100 0 0 ⟨[], []⟩ 1
      (mkChan (mkDir 0 true 9 0 0 0) (mkDir 1 false 0 0 0 0)) rfl rfl rfl
  · exact C6_relaxation_gates.2.2.1 _ 100 9 0 ⟨[], []⟩ 1
      (mkChan (mkDir 5 false 0 0 0 0) (mkDir 6 false 0 0 0 0)) rfl (by decide) rfl
  · exact C6_relaxation_gates.2.2.2 0 100 1 2 5 0 0 0 0
      ⟨[], [(0, ⟨10, 0, 0, placeholderHop⟩)]⟩ ⟨10, 0, 0, placeholderHop⟩
      (by decide) rfl (by decide)

/-! ## Claim C9: RouteToSelf and NoPath -/

/-- Path reconstruction never produces a `HandleError` (its only failures
are the modelled panic and fuel exhaustion). -/
theorem buildGo_ne_handle (target fv fc : Nat) :
    ∀ (fuel : Nat) (acc : List RouteHop) (last : RouteHop)
      (dist : List (Nat × DistEntry)) (e : HandleError),
      buildGo target fv fc fuel acc last dist ≠ .error (.handle e) := by
  intro fuel
  induction fuel with
  | zero => intro acc last dist e h; simp [buildGo] at h
  | succ n ih =>
    intro acc last dist e h
    simp only [buildGo] at h
    split at h
    · simp at h
    · split at h
      · simp at h
      · exact ih _ _ _ _ h

/-- Claim C9: `get_route` fails hard with `RouteToSelf` (no `Ignore` hint)
whenever the target is the local node, for every graph — in particular
before any channel is consulted; the main loop fails hard with `NoPath`
exactly when the heap empties, and a pop of the local node can never produce
`NoPath`. -/
theorem C9_route_errors :
    (∀ (net : NetworkMap) (target : Nat) (last_hops : List RouteHint)
        (fv fc fuel : Nat), target = net.our_node_id →
      getRoute net target last_hops fv fc fuel =
        .error (.handle ⟨.RouteToSelf, none⟩)) ∧
    (∀ (net : NetworkMap) (target fv fc fuel : Nat) (st : SearchState),
      st.targets = [] →
      routeLoop net target fv fc (fuel + 1) st =
        .error (.handle ⟨.NoPath, none⟩)) ∧
    (∀ (net : NetworkMap) (target fv fc fuel : Nat) (st : SearchState)
        (entry : RouteGraphNode) (rest : List RouteGraphNode),
      popBest st.targets = some (entry, rest) →
      entry.pubkey = net.our_node_id →
      routeLoop net target fv fc (fuel + 1) st ≠
        .error (.handle ⟨.NoPath, none⟩)) := by
  refine ⟨?_, ?_, ?_⟩
  · intro net target last_hops fv fc fuel h
    simp [getRoute, h]
  · intro net target fv fc fuel st h
    simp [routeLoop, h, popBest]
  · intro net target fv fc fuel st entry rest hpop hour h
    simp only [routeLoop, hpop, hour, if_pos] at h
    simp only [buildRoute] at h
    split at h
    · simp at h
    · exact buildGo_ne_handle target fv fc _ _ _ _ _ h

/-- Witness for `C9_route_errors`: routing to ourselves on a fresh router,
the empty heap, and a heap whose best entry is the local node. -/
theorem C9_witness :
    getRoute (routerNew 3) 3 [] 1 2 5 =
      .error (.handle ⟨.RouteToSelf, none⟩) ∧
    routeLoop (routerNew 0) 1 2 3 1 ⟨[], []⟩ =
      .error (.handle ⟨.NoPath, none⟩) ∧
    routeLoop (routerNew 0) 1 2 3 1 ⟨[⟨0, 5⟩], []⟩ ≠
      .error (.handle ⟨.NoPath, none⟩) := by
  refine ⟨?_, ?_, ?_⟩
  · exact C9_route_errors.1 (routerNew 3) 3 [] 1 2 5 rfl
  · exact C9_route_errors.2.1 (routerNew 0) 1 2 3 0 ⟨[], []⟩ rfl
  · exact C9_route_errors.2.2 (routerNew 0) 1 2 3 0 ⟨[⟨0, 5⟩], []⟩ ⟨0, 5⟩ [] rfl rfl

/-! ## Claim C2: shape of a returned route -/

/-- Any route produced by the reconstruction loop is non-empty and its last
hop is the patched one: pubkey equal to the loop's exit test, `fee_msat` and
`cltv_expiry_delta` overwritten with the final values. -/
theorem buildGo_ok_last (target fv fc : Nat) :
    ∀ (fuel : Nat) (acc : List RouteHop) (last : RouteHop)
      (dist : List (Nat × DistEntry)) (r : Route),
      buildGo target fv fc fuel acc last dist = .ok r →
      r.hops ≠ [] ∧ ∃ hp, r.hops.getLast? = some hp ∧ hp.pubkey = target ∧
        hp.fee_msat = fv ∧ hp.cltv_expiry_delta = fc := by
  intro fuel
  induction fuel with
  | zero => intro acc last dist r h; simp [buildGo] at h
  | succ n ih =>
    intro acc last dist r h
    simp only [buildGo] at h
    split at h
    · rename_i htgt
      cases h
      refine ⟨by simp, ⟨_, List.getLast?_concat _, htgt, rfl, rfl⟩⟩
    · split at h
      · simp at h
      · exact ih _ _ _ _ h

/-- Any route produced by the main loop satisfies the reconstruction
post-conditions. -/
theorem routeLoop_ok_last (net : NetworkMap) (target fv fc : Nat) :
    ∀ (fuel : Nat) (st : SearchState) (r : Route),
      routeLoop net target fv fc fuel st = .ok r →
      r.hops ≠ [] ∧ ∃ hp, r.hops.getLast? = some hp ∧ hp.pubkey = target ∧
        hp.fee_msat = fv ∧ hp.cltv_expiry_delta = fc := by
  intro fuel
  induction fuel with
  | zero => intro st r h; simp [routeLoop] at h
  | succ n ih =>
    intro st r h
    simp only [routeLoop] at h
    split at h
    · simp at h
    · split at h
      · simp only [buildRoute] at h
        split at h
        · simp at h
        · exact buildGo_ok_last target fv fc _ _ _ _ _ h
      · split at h
        · exact ih _ _ h
        · split at h
          · simp at h
          · exact ih _ _ h

/-- Claim C2 amended: whenever `get_route` returns `Ok(route)` —
for every graph, hint list, amount, cltv and fuel — the hop list is
non-empty, and its last hop has `pubkey = target`,
`fee_msat = final_value_msat` and `cltv_expiry_delta = final_cltv`.
(The claim's additional bound of at most 20 hops is not enforced by the
code: see the counterexample.) -/
theorem C2_amended (net : NetworkMap) (target : Nat) (last_hops : List RouteHint)
    (fv fc fuel : Nat) (r : Route)
    (h : getRoute net target last_hops fv fc fuel = .ok r) :
    r.hops ≠ [] ∧ ∃ hp, r.hops.getLast? = some hp ∧ hp.pubkey = target ∧
      hp.fee_msat = fv ∧ hp.cltv_expiry_delta = fc := by
  simp only [getRoute] at h
  split at h
  · simp at h
  · split at h
    · simp at h
    · split at h
      · simp at h
      · exact routeLoop_ok_last net target fv fc _ _ _ h

/-- Witness for `C2_amended` on `oneHopNet`: the returned single-hop route
ends at the target with the final amount and cltv. -/
theorem C2_amended_witness :
    (Route.mk [⟨1, 1, 100, 42⟩]).hops ≠ [] ∧
    ∃ hp, (Route.mk [⟨1, 1, 100, 42⟩]).hops.getLast? = some hp ∧
      hp.pubkey = 1 ∧ hp.fee_msat = 100 ∧ hp.cltv_expiry_delta = 42 :=
  C2_amended oneHopNet 1 [] 100 42 10 ⟨[⟨1, 1, 100, 42⟩]⟩ rfl

/-- Claim C2 as stated is false: nothing in `get_route` bounds the hop count
by 20.  On the 22-node line graph `chainNet` the only route from the local
node to node 21 is returned with 21 hops. -/
theorem C2_counterexample :
    (getRoute chainNet 21 [] 100 42 60).map (fun r => r.hops.length) =
      .ok 21 ∧ ¬ (21 ≤ 20) :=
  ⟨by rfl, by decide⟩

/-! ## Claim C1: the lowest-inbound-fee caches -/

/-- Claim C1 as stated is false: after the successfully handled sequence
announce channel 5 between nodes 1 and 2, enable its `one_to_two` at fees
`(100, 7)`, then update it (still enabled) to fees `(200, 9)`, node 2's
cached base fee is still `100` — the enable path only takes
`min(cached, new)` and never raises the cache — while the minimum
`fee_base_msat` over enabled records pointing toward node 2 is `200`. -/
theorem C1_counterexample :
    (applyOp (routerNew 0) (.chanAnn c1Ann)).isOk = true ∧
    (applyOp c1Net1 (.chanUpd c1Upd1)).isOk = true ∧
    (applyOp c1Net2 (.chanUpd c1Upd2)).isOk = true ∧
    (alistLookup c1Net3.nodes 2).map
      (fun i => i.lowest_inbound_channel_fee_base_msat) = some 100 ∧
    claimedMinInboundBase c1Net3 2 = 200 ∧ ¬ (100 : Nat) = 200 :=
  ⟨rfl, rfl, rfl, rfl, rfl, by decide⟩

/-- The rescan fold never increases its accumulators. -/
theorem rescanFees_mono (channels : ChanMap) (dest : Nat) :
    ∀ (cids : List Nat) (b p b' p' : Nat),
      rescanFees channels dest cids b p = some (b', p') → b' ≤ b ∧ p' ≤ p := by
  intro cids
  induction cids with
  | nil =>
    intro b p b' p' h
    simp only [rescanFees, Option.some.injEq, Prod.mk.injEq] at h
    omega
  | cons c rest ih =>
    intro b p b' p' h
    simp only [rescanFees] at h
    split at h
    · simp at h
    · split at h
      · have hrec := ih _ _ _ _ h
        exact ⟨le_trans hrec.1 (min_le_left _ _), le_trans hrec.2 (min_le_left _ _)⟩
      · have hrec := ih _ _ _ _ h
        exact ⟨le_trans hrec.1 (min_le_left _ _), le_trans hrec.2 (min_le_left _ _)⟩

/-- The rescan result is a lower bound for the selected direction's fees of
every channel it visits. -/
theorem rescanFees_le (channels : ChanMap) (dest : Nat) :
    ∀ (cids : List Nat) (b p b' p' : Nat),
      rescanFees channels dest cids b p = some (b', p') →
      ∀ cid ∈ cids, ∀ ch, channels cid = some ch →
        (ch.one_to_two.src_node_id = dest →
          b' ≤ ch.two_to_one.fee_base_msat ∧
          p' ≤ ch.two_to_one.fee_proportional_millionths) ∧
        (ch.one_to_two.src_node_id ≠ dest →
          b' ≤ ch.one_to_two.fee_base_msat ∧
          p' ≤ ch.one_to_two.fee_proportional_millionths) := by
  intro cids
  induction cids with
  | nil => intro b p b' p' h cid hmem; simp at hmem
  | cons c rest ih =>
    intro b p b' p' h cid hmem ch hch
    simp only [rescanFees] at h
    rcases List.mem_cons.mp hmem with hcid | hcid
    · subst hcid
      simp only [hch] at h
      split at h
      · rename_i hsel
        have hrec := rescanFees_mono channels dest _ _ _ _ _ h
        refine ⟨fun _ => ⟨le_trans hrec.1 (min_le_right _ _),
          le_trans hrec.2 (min_le_right _ _)⟩, fun hns => absurd hsel hns⟩
      · rename_i hsel
        have hrec := rescanFees_mono channels dest _ _ _ _ _ h
        refine ⟨fun hs => absurd hs hsel, fun _ => ⟨le_trans hrec.1 (min_le_right _ _),
          le_trans hrec.2 (min_le_right _ _)⟩⟩
    · cases hcc : channels c with
      | none => rw [hcc] at h; exact absurd h (by simp)
      | some chan =>
        simp only [hcc] at h
        split at h
        · exact ih _ _ _ _ h cid hcid ch hch
        · exact ih _ _ _ _ h cid hcid ch hch

/-- Inserting a node entry that keeps its channel list preserves every
listing of the old node map. -/
theorem insert_preserves_listing (nodes : List (Nat × NodeInfo)) (dest : Nat)
    (node node' : NodeInfo) (hnode : alistLookup nodes dest = some node)
    (hkeep : node'.channels = node.channels) (m : Nat) (i : NodeInfo) (c : Nat)
    (hi : alistLookup nodes m = some i) (hm : c ∈ i.channels) :
    ∃ i', alistLookup (alistInsert nodes dest node') m = some i' ∧
      c ∈ i'.channels := by
  by_cases h : m = dest
  · subst h
    rw [hi] at hnode
    cases hnode
    exact ⟨node', alistLookup_insert_self .., by rw [hkeep]; exact hm⟩
  · rw [alistLookup_insert_ne _ _ _ _ h]
    exact ⟨i, hi, hm⟩

/-- Looking past an `add_channel_to_node!` on a different node. -/
theorem addChannelToNode_lookup_ne (nodes : List (Nat × NodeInfo))
    (nid cidk m : Nat) (h : m ≠ nid) :
    alistLookup (addChannelToNode nodes nid cidk) m = alistLookup nodes m := by
  unfold addChannelToNode
  split
  · exact alistLookup_insert_ne _ _ _ _ h
  · exact alistLookup_insert_ne _ _ _ _ h

/-- `add_channel_to_node!` preserves existing lookups up to appending to one
channel list: caches are untouched and memberships survive. -/
theorem addChannelToNode_lookup_some (nodes : List (Nat × NodeInfo))
    (nid cidk m : Nat) (i : NodeInfo) (hi : alistLookup nodes m = some i) :
    ∃ i', alistLookup (addChannelToNode nodes nid cidk) m = some i' ∧
      i'.lowest_inbound_channel_fee_base_msat =
        i.lowest_inbound_channel_fee_base_msat ∧
      i'.lowest_inbound_channel_fee_proportional_millionths =
        i.lowest_inbound_channel_fee_proportional_millionths ∧
      (∀ c, c ∈ i.channels → c ∈ i'.channels) := by
  by_cases h : m = nid
  · subst h
    unfold addChannelToNode
    rw [hi]
    exact ⟨_, alistLookup_insert_self .., rfl, rfl,
      fun c hc => List.mem_append_left _ hc⟩
  · rw [addChannelToNode_lookup_ne _ _ _ _ h]
    exact ⟨i, hi, rfl, rfl, fun _ hc => hc⟩

/-- After `add_channel_to_node!`, the node exists and lists the channel. -/
theorem addChannelToNode_lists (nodes : List (Nat × NodeInfo)) (nid cidk : Nat) :
    ∃ i, alistLookup (addChannelToNode nodes nid cidk) nid = some i ∧
      cidk ∈ i.channels := by
  unfold addChannelToNode
  cases hl : alistLookup nodes nid with
  | none => exact ⟨_, alistLookup_insert_self .., by simp⟩
  | some node => exact ⟨_, alistLookup_insert_self .., by simp⟩

/-- A fresh router satisfies the invariant (no channels at all). -/
theorem routerInv_new (pk : Nat) : RouterInv (routerNew pk) := by
  refine ⟨?_, ?_, ?_⟩
  · intro N info _ cid ch d hch
    simp [routerNew] at hch
  · intro cid ch hch
    simp [routerNew] at hch
  · intro cid ch hch
    simp [routerNew] at hch

/-- `handle_node_announcement` preserves the invariant: it touches neither
the channel map nor any channel list or cache. -/
theorem routerInv_nodeAnn (net : NetworkMap) (msg : NodeAnnouncement)
    (net' : NetworkMap) (hinv : RouterInv net)
    (h : handleNodeAnnouncement net msg = .ok net') : RouterInv net' := by
  obtain ⟨hc, hl, hd⟩ := hinv
  simp only [handleNodeAnnouncement] at h
  split at h
  · simp at h
  · split at h
    · simp at h
    · rename_i node hsome
      split at h
      · simp at h
      · cases h
        refine ⟨?_, ?_, ?_⟩
        · intro N info hN cid ch d hch hpt hen
          by_cases hNn : N = msg.contents.node_id
          · subst hNn
            rw [alistLookup_insert_self] at hN
            cases hN
            exact hc _ node hsome cid ch d hch hpt hen
          · rw [alistLookup_insert_ne _ _ _ _ hNn] at hN
            exact hc N info hN cid ch d hch hpt hen
        · intro cid ch hch
          obtain ⟨⟨i1, hi1, hm1⟩, ⟨i2, hi2, hm2⟩⟩ := hl cid ch hch
          exact ⟨insert_preserves_listing net.nodes msg.contents.node_id node { node with features := msg.contents.features, last_update := msg.contents.timestamp, rgb := msg.contents.rgb, alias_bytes := msg.contents.alias_bytes, addresses := msg.contents.addresses } hsome rfl _ i1 cid hi1 hm1,
            insert_preserves_listing net.nodes msg.contents.node_id node { node with features := msg.contents.features, last_update := msg.contents.timestamp, rgb := msg.contents.rgb, alias_bytes := msg.contents.alias_bytes, addresses := msg.contents.addresses } hsome rfl _ i2 cid hi2 hm2⟩
        · intro cid ch hch
          exact hd cid ch hch

/-- `handle_channel_announcement` preserves the invariant when the two
endpoints are distinct: the new channel starts with both directions
disabled, both endpoints list it, and no existing cache or record moves. -/
theorem routerInv_chanAnn (net : NetworkMap) (msg : ChannelAnnouncement)
    (net' : NetworkMap) (flag : Bool) (hinv : RouterInv net)
    (hne : msg.contents.node_id_1 ≠ msg.contents.node_id_2)
    (h : handleChannelAnnouncement net msg = .ok (net', flag)) : RouterInv net' := by
  obtain ⟨hc, hl, hd⟩ := hinv
  simp only [handleChannelAnnouncement] at h
  split at h
  · simp at h
  · split at h
    · simp at h
    · split at h
      · simp at h
      · rename_i hvac
        simp only [Except.ok.injEq, Prod.mk.injEq] at h
        obtain ⟨h1, _⟩ := h
        subst h1
        refine ⟨?_, ?_, ?_⟩
        · intro N info hN cid' ch d hch hpt hen
          by_cases hcid : cid' = msg.contents.short_channel_id
          · subst hcid
            dsimp only [] at hch
            rw [if_pos rfl] at hch
            injection hch with hch
            subst hch
            rcases hpt with ⟨hde, _⟩ | ⟨hde, _⟩
            · rw [hde] at hen
              simp [initialDirectionalInfo] at hen
            · rw [hde] at hen
              simp [initialDirectionalInfo] at hen
          · simp only [if_neg hcid] at hch
            have hex : ∃ iN, alistLookup net.nodes N = some iN := by
              rcases hpt with ⟨_, hsrc⟩ | ⟨_, hsrc⟩
              · obtain ⟨_, ⟨i2, hi2, _⟩⟩ := hl cid' ch hch
                exact ⟨i2, by rwa [hsrc] at hi2⟩
              · obtain ⟨⟨i1, hi1, _⟩, _⟩ := hl cid' ch hch
                exact ⟨i1, by rwa [hsrc] at hi1⟩
            obtain ⟨iN, hiN⟩ := hex
            have hbound := hc N iN hiN cid' ch d hch hpt hen
            obtain ⟨iN1, hiN1, hb1, hp1, _⟩ := addChannelToNode_lookup_some
              net.nodes msg.contents.node_id_1 msg.contents.short_channel_id N iN hiN
            obtain ⟨iN2, hiN2, hb2, hp2, _⟩ := addChannelToNode_lookup_some
              _ msg.contents.node_id_2 msg.contents.short_channel_id N iN1 hiN1
            rw [hiN2] at hN
            cases hN
            exact ⟨by omega, by omega⟩
        · intro cid' ch hch
          by_cases hcid : cid' = msg.contents.short_channel_id
          · subst hcid
            dsimp only [] at hch
            rw [if_pos rfl] at hch
            injection hch with hch
            subst hch
            constructor
            · obtain ⟨i1, hi1, hm1⟩ := addChannelToNode_lists net.nodes
                msg.contents.node_id_1 msg.contents.short_channel_id
              exact ⟨i1, by
                dsimp only [initialDirectionalInfo]
                rw [addChannelToNode_lookup_ne _ _ _ _ hne]
                exact hi1, hm1⟩
            · obtain ⟨i2, hi2, hm2⟩ := addChannelToNode_lists
                (addChannelToNode net.nodes msg.contents.node_id_1
                  msg.contents.short_channel_id)
                msg.contents.node_id_2 msg.contents.short_channel_id
              exact ⟨i2, hi2, hm2⟩
          · simp only [if_neg hcid] at hch
            obtain ⟨⟨i1, hi1, hm1⟩, ⟨i2, hi2, hm2⟩⟩ := hl cid' ch hch
            obtain ⟨i1', hi1', _, _, hmm1⟩ := addChannelToNode_lookup_some
              net.nodes msg.contents.node_id_1 msg.contents.short_channel_id _ i1 hi1
            obtain ⟨i1'', hi1'', _, _, hmm1'⟩ := addChannelToNode_lookup_some
              _ msg.contents.node_id_2 msg.contents.short_channel_id _ i1' hi1'
            obtain ⟨i2', hi2', _, _, hmm2⟩ := addChannelToNode_lookup_some
              net.nodes msg.contents.node_id_1 msg.contents.short_channel_id _ i2 hi2
            obtain ⟨i2'', hi2'', _, _, hmm2'⟩ := addChannelToNode_lookup_some
              _ msg.contents.node_id_2 msg.contents.short_channel_id _ i2' hi2'
            exact ⟨⟨i1'', hi1'', hmm1' _ (hmm1 _ hm1)⟩,
              ⟨i2'', hi2'', hmm2' _ (hmm2 _ hm2)⟩⟩
        · intro cid' ch hch
          by_cases hcid : cid' = msg.contents.short_channel_id
          · subst hcid
            dsimp only [] at hch
            rw [if_pos rfl] at hch
            injection hch with hch
            subst hch
            exact hne
          · simp only [if_neg hcid] at hch
            exact hd cid' ch hch

/-- The cache-maintenance tail of a channel update targeting `one_to_two`
preserves the invariant (destination node is `two_to_one.src_node_id`). -/
theorem routerInv_cacheSection_one (net : NetworkMap) (cid : Nat)
    (channel : ChannelInfo) (t' : DirectionalChannelInfo) (net' : NetworkMap)
    (hc : CacheLowerBound net) (hl : ChannelsListed net)
    (hd : DistinctEndpoints net) (hchan : net.channels cid = some channel)
    (hsrc : t'.src_node_id = channel.one_to_two.src_node_id)
    (h : cacheSection net
      (fun k => if k = cid then some { channel with one_to_two := t' }
        else net.channels k)
      channel.two_to_one.src_node_id t'.enabled channel.one_to_two.enabled
      t'.fee_base_msat t'.fee_proportional_millionths = .ok net') :
    RouterInv net' := by
  simp only [cacheSection] at h
  split at h
  · rename_i hce
    split at h
    · simp at h
    · rename_i node hnode
      cases h
      refine ⟨?_, ?_, ?_⟩
      · intro N info hN cid' ch d hch hpt hen
        dsimp only [] at hN hch
        by_cases hNd : N = channel.two_to_one.src_node_id
        · subst hNd
          rw [alistLookup_insert_self] at hN
          injection hN with hN
          subst hN
          by_cases hcid : cid' = cid
          · subst cid'
            rw [if_pos rfl] at hch
            injection hch with hch
            subst hch
            rcases hpt with ⟨hde, _⟩ | ⟨hde, hsN⟩
            · rw [hde]
              exact ⟨min_le_right _ _, min_le_right _ _⟩
            · exfalso
              apply hd cid channel hchan
              rw [← hsrc]
              exact hsN
          · rw [if_neg hcid] at hch
            have hb := hc _ node hnode cid' ch d hch hpt hen
            exact ⟨le_trans (min_le_left _ _) hb.1, le_trans (min_le_left _ _) hb.2⟩
        · rw [alistLookup_insert_ne _ _ _ _ hNd] at hN
          by_cases hcid : cid' = cid
          · subst cid'
            rw [if_pos rfl] at hch
            injection hch with hch
            subst hch
            rcases hpt with ⟨hde, hsN⟩ | ⟨hde, hsN⟩
            · exact absurd hsN.symm hNd
            · have hsN' : channel.one_to_two.src_node_id = N := by
                rw [← hsrc]; exact hsN
              have hb := hc N info hN cid channel channel.two_to_one hchan (Or.inr ⟨rfl, hsN'⟩)
                (by rw [hde] at hen; exact hen)
              rw [hde]
              exact hb
          · rw [if_neg hcid] at hch
            exact hc N info hN cid' ch d hch hpt hen
      · intro cid' ch hch
        dsimp only [] at hch ⊢
        have hpres := insert_preserves_listing net.nodes
          channel.two_to_one.src_node_id node
          { node with lowest_inbound_channel_fee_base_msat := min node.lowest_inbound_channel_fee_base_msat t'.fee_base_msat, lowest_inbound_channel_fee_proportional_millionths := min node.lowest_inbound_channel_fee_proportional_millionths t'.fee_proportional_millionths }
          hnode rfl
        by_cases hcid : cid' = cid
        · subst cid'
          rw [if_pos rfl] at hch
          injection hch with hch
          subst hch
          obtain ⟨⟨i1, hi1, hm1⟩, ⟨i2, hi2, hm2⟩⟩ := hl cid channel hchan
          constructor
          · rw [hsrc]
            exact hpres _ i1 cid hi1 hm1
          · exact hpres _ i2 cid hi2 hm2
        · rw [if_neg hcid] at hch
          obtain ⟨⟨i1, hi1, hm1⟩, ⟨i2, hi2, hm2⟩⟩ := hl cid' ch hch
          exact ⟨hpres _ i1 cid' hi1 hm1, hpres _ i2 cid' hi2 hm2⟩
      · intro cid' ch hch
        dsimp only [] at hch
        by_cases hcid : cid' = cid
        · subst cid'
          rw [if_pos rfl] at hch
          injection hch with hch
          subst hch
          dsimp only []
          rw [hsrc]
          exact hd cid channel hchan
        · rw [if_neg hcid] at hch
          exact hd cid' ch hch
  · rename_i hce
    split at h
    · rename_i hcw
      split at h
      · simp at h
      · rename_i node hnode
        split at h
        · simp at h
        · rename_i b p hres
          cases h
          refine ⟨?_, ?_, ?_⟩
          · intro N info hN cid' ch d hch hpt hen
            dsimp only [] at hN hch
            by_cases hNd : N = channel.two_to_one.src_node_id
            · subst hNd
              rw [alistLookup_insert_self] at hN
              injection hN with hN
              subst hN
              by_cases hcid : cid' = cid
              · subst cid'
                rw [if_pos rfl] at hch
                injection hch with hch
                subst hch
                rcases hpt with ⟨hde, _⟩ | ⟨hde, hsN⟩
                · exfalso
                  rw [hde] at hen
                  exact hce hen
                · exfalso
                  apply hd cid channel hchan
                  rw [← hsrc]
                  exact hsN
              · rw [if_neg hcid] at hch
                have hch' : (fun k => if k = cid then
                    some { channel with one_to_two := t' } else net.channels k)
                    cid' = some ch := by
                  dsimp only []
                  rw [if_neg hcid]
                  exact hch
                rcases hpt with ⟨hde, hsN⟩ | ⟨hde, hsN⟩
                · obtain ⟨_, ⟨i2, hi2, hm2⟩⟩ := hl cid' ch hch
                  rw [hsN, hnode] at hi2
                  injection hi2 with hi2
                  subst hi2
                  have hle := rescanFees_le _ _ node.channels U32MAX U32MAX b p
                    hres cid' hm2 ch hch'
                  have hnsel : ch.one_to_two.src_node_id ≠
                      channel.two_to_one.src_node_id := by
                    rw [← hsN]
                    exact hd cid' ch hch
                  rw [hde]
                  exact hle.2 hnsel
                · obtain ⟨⟨i1, hi1, hm1⟩, _⟩ := hl cid' ch hch
                  rw [hsN, hnode] at hi1
                  injection hi1 with hi1
                  subst hi1
                  have hle := rescanFees_le _ _ node.channels U32MAX U32MAX b p
                    hres cid' hm1 ch hch'
                  rw [hde]
                  exact hle.1 hsN
            · rw [alistLookup_insert_ne _ _ _ _ hNd] at hN
              by_cases hcid : cid' = cid
              · subst cid'
                rw [if_pos rfl] at hch
                injection hch with hch
                subst hch
                rcases hpt with ⟨hde, hsN⟩ | ⟨hde, hsN⟩
                · exact absurd hsN.symm hNd
                · have hsN' : channel.one_to_two.src_node_id = N := by
                    rw [← hsrc]; exact hsN
                  have hb := hc N info hN cid channel channel.two_to_one hchan (Or.inr ⟨rfl, hsN'⟩)
                    (by rw [hde] at hen; exact hen)
                  rw [hde]
                  exact hb
              · rw [if_neg hcid] at hch
                exact hc N info hN cid' ch d hch hpt hen
          · intro cid' ch hch
            dsimp only [] at hch ⊢
            have hpres := insert_preserves_listing net.nodes
              channel.two_to_one.src_node_id node
              { node with lowest_inbound_channel_fee_base_msat := b, lowest_inbound_channel_fee_proportional_millionths := p }
              hnode rfl
            by_cases hcid : cid' = cid
            · subst cid'
              rw [if_pos rfl] at hch
              injection hch with hch
              subst hch
              obtain ⟨⟨i1, hi1, hm1⟩, ⟨i2, hi2, hm2⟩⟩ := hl cid channel hchan
              constructor
              · rw [hsrc]
                exact hpres _ i1 cid hi1 hm1
              · exact hpres _ i2 cid hi2 hm2
            · rw [if_neg hcid] at hch
              obtain ⟨⟨i1, hi1, hm1⟩, ⟨i2, hi2, hm2⟩⟩ := hl cid' ch hch
              exact ⟨hpres _ i1 cid' hi1 hm1, hpres _ i2 cid' hi2 hm2⟩
          · intro cid' ch hch
            dsimp only [] at hch
            by_cases hcid : cid' = cid
            · subst cid'
              rw [if_pos rfl] at hch
              injection hch with hch
              subst hch
              dsimp only []
              rw [hsrc]
              exact hd cid channel hchan
            · rw [if_neg hcid] at hch
              exact hd cid' ch hch
    · rename_i hcw
      cases h
      refine ⟨?_, ?_, ?_⟩
      · intro N info hN cid' ch d hch hpt hen
        dsimp only [] at hN hch
        by_cases hcid : cid' = cid
        · subst cid'
          rw [if_pos rfl] at hch
          injection hch with hch
          subst hch
          rcases hpt with ⟨hde, hsN⟩ | ⟨hde, hsN⟩
          · exfalso
            rw [hde] at hen
            exact hce hen
          · have hsN' : channel.one_to_two.src_node_id = N := by
              rw [← hsrc]; exact hsN
            have hb := hc N info hN cid channel channel.two_to_one hchan (Or.inr ⟨rfl, hsN'⟩)
              (by rw [hde] at hen; exact hen)
            rw [hde]
            exact hb
        · rw [if_neg hcid] at hch
          exact hc N info hN cid' ch d hch hpt hen
      · intro cid' ch hch
        dsimp only [] at hch ⊢
        by_cases hcid : cid' = cid
        · subst cid'
          rw [if_pos rfl] at hch
          injection hch with hch
          subst hch
          obtain ⟨⟨i1, hi1, hm1⟩, ⟨i2, hi2, hm2⟩⟩ := hl cid channel hchan
          constructor
          · rw [hsrc]
            exact ⟨i1, hi1, hm1⟩
          · exact ⟨i2, hi2, hm2⟩
        · rw [if_neg hcid] at hch
          exact hl cid' ch hch
      · intro cid' ch hch
        dsimp only [] at hch
        by_cases hcid : cid' = cid
        · subst cid'
          rw [if_pos rfl] at hch
          injection hch with hch
          subst hch
          dsimp only []
          rw [hsrc]
          exact hd cid channel hchan
        · rw [if_neg hcid] at hch
          exact hd cid' ch hch

/-- The cache-maintenance tail of a channel update targeting `two_to_one`
preserves the invariant (destination node is `one_to_two.src_node_id`). -/
theorem routerInv_cacheSection_two (net : NetworkMap) (cid : Nat)
    (channel : ChannelInfo) (t' : DirectionalChannelInfo) (net' : NetworkMap)
    (hc : CacheLowerBound net) (hl : ChannelsListed net)
    (hd : DistinctEndpoints net) (hchan : net.channels cid = some channel)
    (hsrc : t'.src_node_id = channel.two_to_one.src_node_id)
    (h : cacheSection net
      (fun k => if k = cid then some { channel with two_to_one := t' }
        else net.channels k)
      channel.one_to_two.src_node_id t'.enabled channel.two_to_one.enabled
      t'.fee_base_msat t'.fee_proportional_millionths = .ok net') :
    RouterInv net' := by
  simp only [cacheSection] at h
  split at h
  · rename_i hce
    split at h
    · simp at h
    · rename_i node hnode
      cases h
      refine ⟨?_, ?_, ?_⟩
      · intro N info hN cid' ch d hch hpt hen
        dsimp only [] at hN hch
        by_cases hNd : N = channel.one_to_two.src_node_id
        · subst hNd
          rw [alistLookup_insert_self] at hN
          injection hN with hN
          subst hN
          by_cases hcid : cid' = cid
          · subst cid'
            rw [if_pos rfl] at hch
            injection hch with hch
            subst hch
            rcases hpt with ⟨hde, hsN⟩ | ⟨hde, _⟩
            · exfalso
              apply hd cid channel hchan
              rw [← hsrc]
              exact hsN.symm
            · rw [hde]
              exact ⟨min_le_right _ _, min_le_right _ _⟩
          · rw [if_neg hcid] at hch
            have hb := hc _ node hnode cid' ch d hch hpt hen
            exact ⟨le_trans (min_le_left _ _) hb.1, le_trans (min_le_left _ _) hb.2⟩
        · rw [alistLookup_insert_ne _ _ _ _ hNd] at hN
          by_cases hcid : cid' = cid
          · subst cid'
            rw [if_pos rfl] at hch
            injection hch with hch
            subst hch
            rcases hpt with ⟨hde, hsN⟩ | ⟨hde, hsN⟩
            · have hsN' : channel.two_to_one.src_node_id = N := by
                rw [← hsrc]; exact hsN
              have hb := hc N info hN cid channel channel.one_to_two hchan
                (Or.inl ⟨rfl, hsN'⟩) (by rw [hde] at hen; exact hen)
              rw [hde]
              exact hb
            · exact absurd hsN.symm hNd
          · rw [if_neg hcid] at hch
            exact hc N info hN cid' ch d hch hpt hen
      · intro cid' ch hch
        dsimp only [] at hch ⊢
        have hpres := insert_preserves_listing net.nodes
          channel.one_to_two.src_node_id node
          { node with lowest_inbound_channel_fee_base_msat := min node.lowest_inbound_channel_fee_base_msat t'.fee_base_msat, lowest_inbound_channel_fee_proportional_millionths := min node.lowest_inbound_channel_fee_proportional_millionths t'.fee_proportional_millionths }
          hnode rfl
        by_cases hcid : cid' = cid
        · subst cid'
          rw [if_pos rfl] at hch
          injection hch with hch
          subst hch
          obtain ⟨⟨i1, hi1, hm1⟩, ⟨i2, hi2, hm2⟩⟩ := hl cid channel hchan
          constructor
          · exact hpres _ i1 cid hi1 hm1
          · rw [hsrc]
            exact hpres _ i2 cid hi2 hm2
        · rw [if_neg hcid] at hch
          obtain ⟨⟨i1, hi1, hm1⟩, ⟨i2, hi2, hm2⟩⟩ := hl cid' ch hch
          exact ⟨hpres _ i1 cid' hi1 hm1, hpres _ i2 cid' hi2 hm2⟩
      · intro cid' ch hch
        dsimp only [] at hch
        by_cases hcid : cid' = cid
        · subst cid'
          rw [if_pos rfl] at hch
          injection hch with hch
          subst hch
          dsimp only []
          rw [hsrc]
          exact hd cid channel hchan
        · rw [if_neg hcid] at hch
          exact hd cid' ch hch
  · rename_i hce
    split at h
    · rename_i hcw
      split at h
      · simp at h
      · rename_i node hnode
        split at h
        · simp at h
        · rename_i b p hres
          cases h
          refine ⟨?_, ?_, ?_⟩
          · intro N info hN cid' ch d hch hpt hen
            dsimp only [] at hN hch
            by_cases hNd : N = channel.one_to_two.src_node_id
            · subst hNd
              rw [alistLookup_insert_self] at hN
              injection hN with hN
              subst hN
              by_cases hcid : cid' = cid
              · subst cid'
                rw [if_pos rfl] at hch
                injection hch with hch
                subst hch
                rcases hpt with ⟨hde, hsN⟩ | ⟨hde, _⟩
                · exfalso
                  apply hd cid channel hchan
                  rw [← hsrc]
                  exact hsN.symm
                · exfalso
                  rw [hde] at hen
                  exact hce hen
              · rw [if_neg hcid] at hch
                have hch' : (fun k => if k = cid then
                    some { channel with two_to_one := t' } else net.channels k)
                    cid' = some ch := by
                  dsimp only []
                  rw [if_neg hcid]
                  exact hch
                rcases hpt with ⟨hde, hsN⟩ | ⟨hde, hsN⟩
                · obtain ⟨_, ⟨i2, hi2, hm2⟩⟩ := hl cid' ch hch
                  rw [hsN, hnode] at hi2
                  injection hi2 with hi2
                  subst hi2
                  have hle := rescanFees_le _ _ node.channels U32MAX U32MAX b p
                    hres cid' hm2 ch hch'
                  have hnsel : ch.one_to_two.src_node_id ≠
                      channel.one_to_two.src_node_id := by
                    rw [← hsN]
                    exact hd cid' ch hch
                  rw [hde]
                  exact hle.2 hnsel
                · obtain ⟨⟨i1, hi1, hm1⟩, _⟩ := hl cid' ch hch
                  rw [hsN, hnode] at hi1
                  injection hi1 with hi1
                  subst hi1
                  have hle := rescanFees_le _ _ node.channels U32MAX U32MAX b p
                    hres cid' hm1 ch hch'
                  rw [hde]
                  exact hle.1 hsN
            · rw [alistLookup_insert_ne _ _ _ _ hNd] at hN
              by_cases hcid : cid' = cid
              · subst cid'
                rw [if_pos rfl] at hch
                injection hch with hch
                subst hch
                rcases hpt with ⟨hde, hsN⟩ | ⟨hde, hsN⟩
                · have hsN' : channel.two_to_one.src_node_id = N := by
                    rw [← hsrc]; exact hsN
                  have hb := hc N info hN cid channel channel.one_to_two hchan
                    (Or.inl ⟨rfl, hsN'⟩) (by rw [hde] at hen; exact hen)
                  rw [hde]
                  exact hb
                · exact absurd hsN.symm hNd
              · rw [if_neg hcid] at hch
                exact hc N info hN cid' ch d hch hpt hen
          · intro cid' ch hch
            dsimp only [] at hch ⊢
            have hpres := insert_preserves_listing net.nodes
              channel.one_to_two.src_node_id node
              { node with lowest_inbound_channel_fee_base_msat := b, lowest_inbound_channel_fee_proportional_millionths := p }
              hnode rfl
            by_cases hcid : cid' = cid
            · subst cid'
              rw [if_pos rfl] at hch
              injection hch with hch
              subst hch
              obtain ⟨⟨i1, hi1, hm1⟩, ⟨i2, hi2, hm2⟩⟩ := hl cid channel hchan
              constructor
              · exact hpres _ i1 cid hi1 hm1
              · rw [hsrc]
                exact hpres _ i2 cid hi2 hm2
            · rw [if_neg hcid] at hch
              obtain ⟨⟨i1, hi1, hm1⟩, ⟨i2, hi2, hm2⟩⟩ := hl cid' ch hch
              exact ⟨hpres _ i1 cid' hi1 hm1, hpres _ i2 cid' hi2 hm2⟩
          · intro cid' ch hch
            dsimp only [] at hch
            by_cases hcid : cid' = cid
            · subst cid'
              rw [if_pos rfl] at hch
              injection hch with hch
              subst hch
              dsimp only []
              rw [hsrc]
              exact hd cid channel hchan
            · rw [if_neg hcid] at hch
              exact hd cid' ch hch
    · rename_i hcw
      cases h
      refine ⟨?_, ?_, ?_⟩
      · intro N info hN cid' ch d hch hpt hen
        dsimp only [] at hN hch
        by_cases hcid : cid' = cid
        · subst cid'
          rw [if_pos rfl] at hch
          injection hch with hch
          subst hch
          rcases hpt with ⟨hde, hsN⟩ | ⟨hde, hsN⟩
          · have hsN' : channel.two_to_one.src_node_id = N := by
              rw [← hsrc]; exact hsN
            have hb := hc N info hN cid channel channel.one_to_two hchan
              (Or.inl ⟨rfl, hsN'⟩) (by rw [hde] at hen; exact hen)
            rw [hde]
            exact hb
          · exfalso
            rw [hde] at hen
            exact hce hen
        · rw [if_neg hcid] at hch
          exact hc N info hN cid' ch d hch hpt hen
      · intro cid' ch hch
        dsimp only [] at hch ⊢
        by_cases hcid : cid' = cid
        · subst cid'
          rw [if_pos rfl] at hch
          injection hch with hch
          subst hch
          obtain ⟨⟨i1, hi1, hm1⟩, ⟨i2, hi2, hm2⟩⟩ := hl cid channel hchan
          constructor
          · exact ⟨i1, hi1, hm1⟩
          · rw [hsrc]
            exact ⟨i2, hi2, hm2⟩
        · rw [if_neg hcid] at hch
          exact hl cid' ch hch
      · intro cid' ch hch
        dsimp only [] at hch
        by_cases hcid : cid' = cid
        · subst cid'
          rw [if_pos rfl] at hch
          injection hch with hch
          subst hch
          dsimp only []
          rw [hsrc]
          exact hd cid channel hchan
        · rw [if_neg hcid] at hch
          exact hd cid' ch hch

/-- `handle_channel_update` preserves the invariant. -/
theorem routerInv_chanUpd (net : NetworkMap) (msg : ChannelUpdate)
    (net' : NetworkMap) (hinv : RouterInv net)
    (h : handleChannelUpdate net msg = .ok net') : RouterInv net' := by
  obtain ⟨hc, hl, hd⟩ := hinv
  simp only [handleChannelUpdate] at h
  split at h
  · simp at h
  · rename_i channel hchan
    split at h
    · simp at h
    · split at h
      · split at h
        · simp at h
        · exact routerInv_cacheSection_two net msg.contents.short_channel_id
            channel (updatedDirectionalInfo channel.two_to_one msg.contents)
            net' hc hl hd hchan rfl h
      · split at h
        · simp at h
        · exact routerInv_cacheSection_one net msg.contents.short_channel_id
            channel (updatedDirectionalInfo channel.one_to_two msg.contents)
            net' hc hl hd hchan rfl h

/-- `handle_htlc_fail_channel_update` preserves the invariant: a wrapped
update either succeeds (previous lemma) or is swallowed, and a channel close
only shrinks the channel map. -/
theorem routerInv_htlcFail (net : NetworkMap) (m : HTLCFailChannelUpdate)
    (net' : NetworkMap) (hinv : RouterInv net)
    (h : handleHtlcFailChannelUpdate net m = .ok net') : RouterInv net' := by
  cases m with
  | ChannelUpdateMessage msg =>
    simp only [handleHtlcFailChannelUpdate] at h
    split at h
    · rename_i n' heq
      cases h
      exact routerInv_chanUpd _ _ _ hinv heq
    · cases h
      exact hinv
    · simp at h
  | ChannelClosed c =>
    simp only [handleHtlcFailChannelUpdate] at h
    cases h
    obtain ⟨hc, hl, hd⟩ := hinv
    refine ⟨?_, ?_, ?_⟩
    · intro N info hN cid ch d hch hpt hen
      dsimp only [] at hN hch
      by_cases hcid : cid = c
      · subst cid
        rw [if_pos rfl] at hch
        simp at hch
      · rw [if_neg hcid] at hch
        exact hc N info hN cid ch d hch hpt hen
    · intro cid ch hch
      dsimp only [] at hch ⊢
      by_cases hcid : cid = c
      · subst cid
        rw [if_pos rfl] at hch
        simp at hch
      · rw [if_neg hcid] at hch
        exact hl cid ch hch
    · intro cid ch hch
      dsimp only [] at hch
      by_cases hcid : cid = c
      · subst cid
        rw [if_pos rfl] at hch
        simp at hch
      · rw [if_neg hcid] at hch
        exact hd cid ch hch

/-- Every state reachable through successfully handled messages (with
distinct-endpoint channel announcements) satisfies the invariant. -/
theorem reachable_routerInv (net : NetworkMap) (h : ReachableWF net) :
    RouterInv net := by
  induction h with
  | base pk => exact routerInv_new pk
  | step hr hwf hop ih =>
    rename_i net op net'
    cases op with
    | nodeAnn m => exact routerInv_nodeAnn _ _ _ ih hop
    | chanAnn m =>
      simp only [applyOp] at hop
      cases hca : handleChannelAnnouncement net m with
      | error e => rw [hca] at hop; simp [Except.map] at hop
      | ok pair =>
        obtain ⟨n1, flag⟩ := pair
        rw [hca] at hop
        simp only [Except.map, Except.ok.injEq] at hop
        subst hop
        exact routerInv_chanAnn net m _ flag ih hwf hca
    | chanUpd m => exact routerInv_chanUpd _ _ _ ih hop
    | htlcFail m => exact routerInv_htlcFail _ _ _ ih hop

/-- Claim C1 amended: in every state reachable from `Router::new` through
successfully handled messages whose channel announcements carry distinct
endpoints (the spec's own data-model invariant), each node's cached
`lowest_inbound_channel_fee_base_msat` is a lower bound on the
`fee_base_msat` of every enabled directional record pointing toward it, and
analogously for the proportional cache.  (Equality with the minimum — and
the sentinel value when no enabled inbound record exists — need not hold:
see the counterexample.) -/
theorem C1_amended (net : NetworkMap) (h : ReachableWF net) :
    ∀ N info, alistLookup net.nodes N = some info →
      ∀ cid ch d, net.channels cid = some ch → pointsToward ch d N →
        d.enabled = true →
        info.lowest_inbound_channel_fee_base_msat ≤ d.fee_base_msat ∧
        info.lowest_inbound_channel_fee_proportional_millionths ≤
          d.fee_proportional_millionths :=
  (reachable_routerInv net h).1

/-- Witness for `C1_amended` on `c1Net2` (announce channel 5 between nodes
1 and 2, then enable `one_to_two` at fees `(100, 7)`): node 2's caches
`(100, 7)` bound the enabled record's fees `(100, 7)`. -/
theorem C1_amended_witness :
    (mkNodeInfo [5] 100 7).lowest_inbound_channel_fee_base_msat ≤
      (⟨1, 1, true, 4, 0, 100, 7⟩ : DirectionalChannelInfo).fee_base_msat ∧
    (mkNodeInfo [5] 100 7).lowest_inbound_channel_fee_proportional_millionths ≤
      (⟨1, 1, true, 4, 0, 100, 7⟩ : DirectionalChannelInfo).fee_proportional_millionths :=
  C1_amended c1Net2
    (@ReachableWF.step c1Net1 (Op.chanUpd c1Upd1) c1Net2
      (@ReachableWF.step (routerNew 0) (Op.chanAnn c1Ann) c1Net1
        (.base 0) (show (1 : Nat) ≠ 2 by decide) rfl)
      True.intro rfl)
    2 (mkNodeInfo [5] 100 7) rfl 5
    ⟨GlobalFeatures.new, ⟨1, 1, true, 4, 0, 100, 7⟩,
      ⟨2, 0, false, U16MAX, U64MAX, U32MAX, U32MAX⟩⟩
    ⟨1, 1, true, 4, 0, 100, 7⟩ rfl (Or.inl ⟨rfl, rfl⟩) rfl
